import Mathlib

/-!
Verification development for the type-graph construction layer of a GraphQL
schema library (`src/type/definition.js`).

The JavaScript source is shallowly embedded:
* JavaScript runtime values that the code stores or branches on are modelled
  by the inductive `JSValue` (`undefined`, `null`, booleans, numbers, strings,
  functions as opaque tokens, and arrays).
* JavaScript object property reads (`obj.prop`, yielding `undefined` when the
  property is absent) are modelled by `Option JSValue` fields read through
  `getProp`.
* `ObjMap`s (plain objects used as string-keyed maps) are modelled as
  insertion-ordered association lists `List (String × _)`.
* The eight GraphQL type kinds are modelled by the inductive `GType`; the six
  named kinds carry their name, the two wrapping kinds carry their `ofType`.
* `devAssert`/`throw` are modelled by `Except`.
-/

/-- A JavaScript runtime value, as far as `definition.js` inspects values:
it distinguishes `undefined`, `null`, strings, functions (`typeof f ===
'function'`) and general truthiness.  Functions and arrays are opaque
tokens identified by a tag: the code stores them and tests `typeof`/
truthiness but never looks inside them. -/
inductive JSValue where
  | undefined : JSValue
  | null : JSValue
  | bool (b : Bool) : JSValue
  | num (n : Int) : JSValue
  | str (s : String) : JSValue
  | fn (tag : Nat) : JSValue
  | arr (tag : Nat) : JSValue
deriving DecidableEq, Repr

/-- The fresh empty array literal `[]` used as the `extensionASTNodes`
default. -/
def emptyArray : JSValue := .arr 0

/-- JavaScript truthiness of a value (`if (v)`). -/
def JSValue.isTruthy : JSValue → Bool
  | .undefined => false
  | .null => false
  | .bool b => b
  | .num n => decide (n ≠ 0)
  | .str s => decide (s ≠ "")
  | .fn _ => true
  | .arr _ => true

/-- `v == null` in JavaScript: true exactly for `undefined` and `null`. -/
def JSValue.isNullish : JSValue → Bool
  | .undefined => true
  | .null => true
  | _ => false

/-- `typeof v === 'function'`. -/
def JSValue.isFunction : JSValue → Bool
  | .fn _ => true
  | _ => false

/-- Reading a possibly-absent property: an absent property reads as
`undefined`. -/
def getProp (o : Option JSValue) : JSValue :=
  o.getD .undefined

/-- The nullish-coalescing operator `a ?? b`. -/
def jsCoalesce (a b : JSValue) : JSValue :=
  if a.isNullish then b else a

/-- The guarded pattern `a && f(a)`: evaluates to `a` itself when `a` is
falsy, and to `f a` otherwise. -/
def jsAnd (a : JSValue) (f : JSValue → JSValue) : JSValue :=
  if a.isTruthy then f a else a

/-- `toObjMap` from jsutils copies an extensions object into a fresh
null-prototype object with the same entries; the copy is observationally
equal to its input, so it is modelled as the identity on the opaque stored
payload. -/
def toObjMap (v : JSValue) : JSValue := v

/-- `identityFunc` from jsutils, the shared default serializer/parser; one
fixed function value. -/
def identityFunc : JSValue := .fn 0

/-- The eight kinds of GraphQL type (`GraphQLType`).  The six named kinds
carry their name (their further payload lives in the per-kind structures
below; classification in the source depends only on the class of the
instance).  The two wrapping kinds carry exactly one inner type. -/
inductive GType where
  | scalar (name : String) : GType
  | object (name : String) : GType
  | interface (name : String) : GType
  | union (name : String) : GType
  | enum (name : String) : GType
  | inputObject (name : String) : GType
  | list (ofType : GType) : GType
  | nonNull (ofType : GType) : GType
deriving DecidableEq, Repr

/-- `String(type)`: named types print their name, `[T]` for lists, `T!` for
non-null (the `toString` methods of the classes). -/
def GType.toStr : GType → String
  | .scalar name => name
  | .object name => name
  | .interface name => name
  | .union name => name
  | .enum name => name
  | .inputObject name => name
  | .list ofType => "[" ++ ofType.toStr ++ "]"
  | .nonNull ofType => ofType.toStr ++ "!"

/-- `isScalarType` (instanceOf GraphQLScalarType). -/
def isScalarType : GType → Bool
  | .scalar _ => true
  | _ => false

/-- `isObjectType`. -/
def isObjectType : GType → Bool
  | .object _ => true
  | _ => false

/-- `isInterfaceType`. -/
def isInterfaceType : GType → Bool
  | .interface _ => true
  | _ => false

/-- `isUnionType`. -/
def isUnionType : GType → Bool
  | .union _ => true
  | _ => false

/-- `isEnumType`. -/
def isEnumType : GType → Bool
  | .enum _ => true
  | _ => false

/-- `isInputObjectType`. -/
def isInputObjectType : GType → Bool
  | .inputObject _ => true
  | _ => false

/-- `isListType`. -/
def isListType : GType → Bool
  | .list _ => true
  | _ => false

/-- `isNonNullType`. -/
def isNonNullType : GType → Bool
  | .nonNull _ => true
  | _ => false

/-- `isType`: the disjunction of the eight kind predicates. -/
def isType (t : GType) : Bool :=
  isScalarType t || isObjectType t || isInterfaceType t || isUnionType t ||
    isEnumType t || isInputObjectType t || isListType t || isNonNullType t

/-- `isWrappingType`: list or non-null. -/
def isWrappingType (t : GType) : Bool :=
  isListType t || isNonNullType t

/-- `isNullableType(type) = isType(type) && !isNonNullType(type)`. -/
def isNullableType (t : GType) : Bool :=
  isType t && !isNonNullType t

/-- `isNamedType`: any of the six non-wrapping kinds. -/
def isNamedType (t : GType) : Bool :=
  isScalarType t || isObjectType t || isInterfaceType t || isUnionType t ||
    isEnumType t || isInputObjectType t

/-- `isLeafType`: scalar or enum. -/
def isLeafType (t : GType) : Bool :=
  isScalarType t || isEnumType t

/-- `isCompositeType`: object, interface or union. -/
def isCompositeType (t : GType) : Bool :=
  isObjectType t || isInterfaceType t || isUnionType t

/-- `isAbstractType`: interface or union. -/
def isAbstractType (t : GType) : Bool :=
  isInterfaceType t || isUnionType t

/-- `isInputType`: scalar, enum, input object, or a wrapping type whose
`ofType` is an input type (`isWrappingType(type) && isInputType(type.ofType)`
is rendered as the match on the two wrapping constructors). -/
def isInputType : GType → Bool
  | .list ofType => isInputType ofType
  | .nonNull ofType => isInputType ofType
  | t => isScalarType t || isEnumType t || isInputObjectType t

/-- `isOutputType`: scalar, object, interface, union, enum, or a wrapping
type whose `ofType` is an output type. -/
def isOutputType : GType → Bool
  | .list ofType => isOutputType ofType
  | .nonNull ofType => isOutputType ofType
  | t =>
    isScalarType t || isObjectType t || isInterfaceType t || isUnionType t ||
      isEnumType t

/-- The `GraphQLList` constructor: `devAssert(isType(ofType), ...)` then
store `ofType`. -/
def mkGraphQLList (ofType : GType) : Except String GType :=
  if isType ofType then .ok (.list ofType)
  else .error ("Expected " ++ ofType.toStr ++ " to be a GraphQL type.")

/-- The `GraphQLNonNull` constructor: `devAssert(isNullableType(ofType),
...)` then store `ofType`.  The `devAssert` throw is the synchronous
construction-time failure. -/
def mkGraphQLNonNull (ofType : GType) : Except String GType :=
  if isNullableType ofType then .ok (.nonNull ofType)
  else .error ("Expected " ++ ofType.toStr ++ " to be a GraphQL nullable type.")

/-- `getNullableType`: absent input propagates as absent, one outer
`NonNull` is stripped (`type.ofType`), any other type is returned
unchanged. -/
def getNullableType : Option GType → Option GType
  | none => none
  | some (.nonNull ofType) => some ofType
  | some t => some t

/-- The `while (isWrappingType(unwrappedType))` loop of `getNamedType`,
as structural recursion on the wrapping layers. -/
def unwrapAll : GType → GType
  | .list ofType => unwrapAll ofType
  | .nonNull ofType => unwrapAll ofType
  | t => t

/-- `getNamedType`: absent input propagates as absent; otherwise all outer
wrapping layers are stripped. -/
def getNamedType : Option GType → Option GType
  | none => none
  | some t => some (unwrapAll t)

/-- `u` is reachable from `t` by following `ofType` references through
wrapping layers: the unwrapping functions return existing (sub)types and
never allocate a new type. -/
inductive Unwraps : GType → GType → Prop where
  | refl (t : GType) : Unwraps t t
  | list (t u : GType) : Unwraps t u → Unwraps (GType.list t) u
  | nonNull (t u : GType) : Unwraps t u → Unwraps (GType.nonNull t) u

/-- `n` layers of `List`/`NonNull` wrapping around a type: `true` adds a
`List` layer, `false` a `NonNull` layer. -/
def applyWrappers : List Bool → GType → GType
  | [], t => t
  | true :: rest, t => GType.list (applyWrappers rest t)
  | false :: rest, t => GType.nonNull (applyWrappers rest t)

/-! ### JavaScript map construction

`new Map(pairs)` and `keyMap` both insert entries in order, a later
insertion with an existing key overwriting the earlier one; a lookup
therefore returns the value of the rightmost pair with the key.  `jsMapGet`
checks the later entries (the tail) first to model exactly that. -/

/-- Lookup in a map built by inserting `pairs` in order with overwrite on
key collision (`new Map(pairs)` / `keyMap`): the rightmost matching pair
wins. -/
def jsMapGet {κ β : Type} [DecidableEq κ] : List (κ × β) → κ → Option β
  | [], _ => none
  | p :: rest, q =>
    match jsMapGet rest q with
    | some r => some r
    | none => if q = p.1 then some p.2 else none

/-! ### JavaScript object construction (`keyValMap`, `keyMap`)

Setting a key on a plain object keeps the key's first insertion position
but overwrites its value; `objSet` models one `obj[k] = v` step and
`keyValMap`/`keyMap` fold it over a list. -/

/-- One `obj[k] = v` assignment on an insertion-ordered object. -/
def objSet {β : Type} (m : List (String × β)) (k : String) (v : β) :
    List (String × β) :=
  if m.any (fun p => p.1 = k) then
    m.map (fun p => if p.1 = k then (k, v) else p)
  else m ++ [(k, v)]

/-- `keyValMap(list, keyFn, valFn)` from jsutils: builds an object keyed by
`keyFn` with values `valFn`. -/
def keyValMap {α β : Type} (l : List α) (keyFn : α → String) (valFn : α → β) :
    List (String × β) :=
  l.foldl (fun m a => objSet m (keyFn a) (valFn a)) []

/-! ### Errors and AST value nodes -/

/-- A parsed value-literal node at the boundary this file dispatches on:
either an enum-literal node (`Kind.ENUM`, carrying its name text) or any
other node kind (carrying its kind tag and its `print`ed text). -/
inductive ValueNode where
  | enumNode (value : String) : ValueNode
  | otherNode (kind : String) (printed : String) : ValueNode
deriving DecidableEq, Repr

/-- `print(valueNode)`: the rendered source text of a node (an enum literal
prints as its name). -/
def printNode : ValueNode → String
  | .enumNode value => value
  | .otherNode _ printed => printed

/-- The structured errors raised by this file (`GraphQLError` / `devAssert`
throws).  The enum-codec errors carry the enum name, the offending value or
text, and the list of all registered value names — `didYouMeanEnumValue`
computes the suggestion clause as a pure function of the offending text and
that name list, so structurally equal errors render to equal messages.
Literal errors also carry the originating node. -/
inductive GError where
  | enumCannotRepresent (enumName : String) (value : JSValue) : GError
  | enumNonStringValue (enumName : String) (value : JSValue)
      (allNames : List String) : GError
  | enumUnknownName (enumName : String) (valueStr : String)
      (allNames : List String) : GError
  | enumNonEnumLiteral (enumName : String) (printed : String)
      (allNames : List String) (node : ValueNode) : GError
  | enumUnknownLiteral (enumName : String) (printed : String)
      (allNames : List String) (node : ValueNode) : GError
  | resolverOnInputField (owner field : String) : GError
  | invalidFieldResolver (owner field : String) (got : JSValue) : GError
  | invalidIsTypeOf (owner : String) (got : JSValue) : GError
  | invalidResolveType (owner : String) (got : JSValue) : GError
  | scalarBadSpecifiedByURL (owner : String) (got : JSValue) : GError
  | scalarBadSerialize (owner : String) : GError
  | scalarMissingParsePair (owner : String) : GError
deriving DecidableEq, Repr

/-! ### Enum type definition -/

/-- `GraphQLEnumValueConfig`: the raw per-value configuration record.
`none` models an absent property, `some v` a property present with value
`v` (so `some .undefined` is a property explicitly set to `undefined`). -/
structure GraphQLEnumValueConfig where
  description : Option JSValue := none
  value : Option JSValue := none
  deprecationReason : Option JSValue := none
  extensions : Option JSValue := none
  astNode : Option JSValue := none
deriving DecidableEq, Repr

/-- `GraphQLEnumValue`: the normalized enum value record. -/
structure GraphQLEnumValue where
  name : String
  description : JSValue
  value : JSValue
  deprecationReason : JSValue
  extensions : JSValue
  astNode : JSValue
deriving DecidableEq, Repr

/-- `defineEnumValues(typeName, valueMap)`: normalizes each entry of the
value map in insertion order.  The internal value is
`valueConfig.value !== undefined ? valueConfig.value : valueName`.
(The `devAssert`s that the map and each entry are plain objects are
enforced by the model's types.) -/
def defineEnumValues (_typeName : String)
    (valueMap : List (String × GraphQLEnumValueConfig)) :
    List GraphQLEnumValue :=
  valueMap.map (fun p =>
    { name := p.1
      description := getProp p.2.description
      value :=
        if getProp p.2.value ≠ JSValue.undefined then getProp p.2.value
        else .str p.1
      deprecationReason := getProp p.2.deprecationReason
      extensions := jsAnd (getProp p.2.extensions) toObjMap
      astNode := getProp p.2.astNode })

/-- `GraphQLEnumTypeConfig`. -/
structure GraphQLEnumTypeConfig where
  name : String
  description : Option JSValue := none
  values : List (String × GraphQLEnumValueConfig)
  extensions : Option JSValue := none
  astNode : Option JSValue := none
  extensionASTNodes : Option JSValue := none
deriving DecidableEq, Repr

/-- `GraphQLEnumType`.  `_valueLookup` and `_nameLookup` are computed from
`_values` in the constructor and never mutated, so they are modelled as the
derived functions `valueLookup`/`nameLookup` below. -/
structure GraphQLEnumType where
  name : String
  description : JSValue
  extensions : JSValue
  astNode : JSValue
  extensionASTNodes : JSValue
  _values : List GraphQLEnumValue
deriving DecidableEq, Repr

/-- The `GraphQLEnumType` constructor. -/
def mkEnumType (config : GraphQLEnumTypeConfig) : GraphQLEnumType :=
  { name := config.name
    description := getProp config.description
    extensions := jsAnd (getProp config.extensions) toObjMap
    astNode := getProp config.astNode
    extensionASTNodes := jsCoalesce (getProp config.extensionASTNodes) emptyArray
    _values := defineEnumValues config.name config.values }

/-- `this._valueLookup = new Map(this._values.map((v) => [v.value, v]))`:
a JavaScript `Map` keyed by internal value — entries are inserted in
registration order and a later `set` with an existing key overwrites, so
lookup returns the latest registration. -/
def GraphQLEnumType.valueLookup (e : GraphQLEnumType) (k : JSValue) :
    Option GraphQLEnumValue :=
  jsMapGet (e._values.map (fun enumValue => (enumValue.value, enumValue))) k

/-- `this._nameLookup = keyMap(this._values, (value) => value.name)`. -/
def GraphQLEnumType.nameLookup (e : GraphQLEnumType) (k : String) :
    Option GraphQLEnumValue :=
  jsMapGet (e._values.map (fun value => (value.name, value))) k

/-- `getValues()`. -/
def GraphQLEnumType.getValues (e : GraphQLEnumType) : List GraphQLEnumValue :=
  e._values

/-- `getValue(name)`. -/
def GraphQLEnumType.getValue (e : GraphQLEnumType) (name : String) :
    Option GraphQLEnumValue :=
  e.nameLookup name

/-- `serialize(outputValue)`: look up by internal value; absent is a hard
`GraphQLError`, otherwise the value's name. -/
def GraphQLEnumType.serialize (e : GraphQLEnumType) (outputValue : JSValue) :
    Except GError String :=
  match e.valueLookup outputValue with
  | none => .error (.enumCannotRepresent e.name outputValue)
  | some enumValue => .ok enumValue.name

/-- `parseValue(inputValue)`: the input must be a string naming a value;
otherwise / on unknown name a suggestion-augmented `GraphQLError`. -/
def GraphQLEnumType.parseValue (e : GraphQLEnumType) (inputValue : JSValue) :
    Except GError JSValue :=
  match inputValue with
  | .str s =>
    match e.getValue s with
    | none =>
      .error (.enumUnknownName e.name s (e.getValues.map (·.name)))
    | some enumValue => .ok enumValue.value
  | v => .error (.enumNonStringValue e.name v (e.getValues.map (·.name)))

/-- `parseLiteral(valueNode, _variables)`: the node must be an enum-literal
node; then the same name lookup as `parseValue`, with the node attached to
any error. -/
def GraphQLEnumType.parseLiteral (e : GraphQLEnumType) (valueNode : ValueNode)
    (_variables : Option (List (String × JSValue))) : Except GError JSValue :=
  match valueNode with
  | .enumNode value =>
    match e.getValue value with
    | none =>
      .error (.enumUnknownLiteral e.name (printNode valueNode)
        (e.getValues.map (·.name)) valueNode)
    | some enumValue => .ok enumValue.value
  | node =>
    .error (.enumNonEnumLiteral e.name (printNode node)
      (e.getValues.map (·.name)) node)

/-- One normalized enum value back to config shape. -/
def enumValueToConfig (value : GraphQLEnumValue) : GraphQLEnumValueConfig :=
  { description := some value.description
    value := some value.value
    deprecationReason := some value.deprecationReason
    extensions := some value.extensions
    astNode := some value.astNode }

/-- `toConfig()` for enums: identity fields verbatim, values re-expressed
as a config map keyed by name via `keyValMap`. -/
def GraphQLEnumType.toConfig (e : GraphQLEnumType) : GraphQLEnumTypeConfig :=
  { name := e.name
    description := some e.description
    values := keyValMap e.getValues (fun value => value.name) enumValueToConfig
    extensions := some e.extensions
    astNode := some e.astNode
    extensionASTNodes := some e.extensionASTNodes }

/-- A two-value enum in which differently-named records `A` (registered
first) and `B` (registered second) share the internal value `0`. -/
def enumCollisionConfig : GraphQLEnumTypeConfig :=
  { name := "Coll"
    values :=
      [("A", { value := some (.num 0) }), ("B", { value := some (.num 0) })] }

/-- The constructed collision enum. -/
def enumCollision : GraphQLEnumType := mkEnumType enumCollisionConfig

/-- The normalized record named `A` in `enumCollision`. -/
def enumCollisionA : GraphQLEnumValue :=
  { name := "A", description := .undefined, value := .num 0,
    deprecationReason := .undefined, extensions := .undefined, astNode := .undefined }

/-- The normalized record named `B` in `enumCollision`. -/
def enumCollisionB : GraphQLEnumValue :=
  { name := "B", description := .undefined, value := .num 0,
    deprecationReason := .undefined, extensions := .undefined, astNode := .undefined }

/-- A collision-free enum `RGB = { RED: 0, GREEN: 1 }`. -/
def enumRGB : GraphQLEnumType :=
  mkEnumType
    { name := "RGB"
      values :=
        [("RED", { value := some (.num 0) }),
         ("GREEN", { value := some (.num 1) })] }

/-- The normalized record named `RED` in `enumRGB`. -/
def enumRGBRed : GraphQLEnumValue :=
  { name := "RED", description := .undefined, value := .num 0,
    deprecationReason := .undefined, extensions := .undefined, astNode := .undefined }

/-! ### Thunks

Fields, interfaces and union members may be supplied directly or as a
zero-argument producer.  A producer is a JavaScript closure over mutable
external state; that state is modelled by an opaque environment value
passed at invocation time. -/

/-- An opaque snapshot of a thunk's external (mutable) environment. -/
abbrev JSEnv := Nat

/-- `ThunkArray`/`ThunkObjMap`: either a direct value or a function
(`typeof thunk === 'function'` distinguishes the two). -/
inductive ThunkOrValue (α : Type) where
  | thunk (producer : JSEnv → α) : ThunkOrValue α
  | value (v : α) : ThunkOrValue α

/-- `resolveArrayThunk` / `resolveObjMapThunk`:
`typeof thunk === 'function' ? thunk() : thunk`. -/
def resolveThunk {α : Type} (t : ThunkOrValue α) (env : JSEnv) : α :=
  match t with
  | .thunk producer => producer env
  | .value v => v

/-! ### Arguments and fields -/

/-- `GraphQLArgumentConfig` (raw). -/
structure GraphQLArgumentConfig where
  description : Option JSValue := none
  type : GType
  defaultValue : Option JSValue := none
  deprecationReason : Option JSValue := none
  extensions : Option JSValue := none
  astNode : Option JSValue := none
deriving DecidableEq, Repr

/-- `GraphQLArgument` (normalized): `defaultValue` holds the raw property
value, `undefined` when no default was supplied. -/
structure GraphQLArgument where
  name : String
  description : JSValue
  type : GType
  defaultValue : JSValue
  deprecationReason : JSValue
  extensions : JSValue
  astNode : JSValue
deriving DecidableEq, Repr

/-- `defineArguments(config)`: `Object.entries(config)` mapped to argument
records in insertion order. -/
def defineArguments (config : List (String × GraphQLArgumentConfig)) :
    List GraphQLArgument :=
  config.map (fun p =>
    { name := p.1
      description := getProp p.2.description
      type := p.2.type
      defaultValue := getProp p.2.defaultValue
      deprecationReason := getProp p.2.deprecationReason
      extensions := jsAnd (getProp p.2.extensions) toObjMap
      astNode := getProp p.2.astNode })

/-- `argsToArgsConfig(args)`: `keyValMap` back to a config object keyed by
argument name. -/
def argsToArgsConfig (args : List GraphQLArgument) :
    List (String × GraphQLArgumentConfig) :=
  keyValMap args (fun arg => arg.name)
    (fun arg =>
      { description := some arg.description
        type := arg.type
        defaultValue := some arg.defaultValue
        deprecationReason := some arg.deprecationReason
        extensions := some arg.extensions
        astNode := some arg.astNode })

/-- `isRequiredArgument(arg) = isNonNullType(arg.type) &&
arg.defaultValue === undefined`. -/
def isRequiredArgument (arg : GraphQLArgument) : Bool :=
  isNonNullType arg.type && decide (arg.defaultValue = JSValue.undefined)

/-- `GraphQLFieldConfig` (raw).  `resolve`/`subscribe` model possibly
present properties holding arbitrary values. -/
structure GraphQLFieldConfig where
  description : Option JSValue := none
  type : GType
  args : Option (List (String × GraphQLArgumentConfig)) := none
  resolve : Option JSValue := none
  subscribe : Option JSValue := none
  deprecationReason : Option JSValue := none
  extensions : Option JSValue := none
  astNode : Option JSValue := none
deriving DecidableEq, Repr

/-- `GraphQLField` (normalized). -/
structure GraphQLField where
  name : String
  description : JSValue
  type : GType
  args : List GraphQLArgument
  resolve : JSValue
  subscribe : JSValue
  deprecationReason : JSValue
  extensions : JSValue
  astNode : JSValue
deriving DecidableEq, Repr

/-- `mapValue(map, fn)` where `fn` may throw: maps each entry in order,
keeping its key; the first throw aborts the whole map. -/
def mapValueE {α β ε : Type} :
    List (String × α) → (String → α → Except ε β) →
      Except ε (List (String × β))
  | [], _ => .ok []
  | (k, a) :: rest, f => do
    let b ← f k a
    let r ← mapValueE rest f
    .ok ((k, b) :: r)

/-- The per-entry body of `defineFieldMap`: `devAssert(fieldConfig.resolve
== null || typeof fieldConfig.resolve === 'function')` — the only assert
not already enforced by the model's types (the plain-object asserts are) —
then the normalized record with defaults applied
(`fieldConfig.args ?? {}`). -/
def defineField (typeName fieldName : String)
    (fieldConfig : GraphQLFieldConfig) : Except GError GraphQLField :=
  if (getProp fieldConfig.resolve).isNullish ∨
      (getProp fieldConfig.resolve).isFunction then
    .ok
      { name := fieldName
        description := getProp fieldConfig.description
        type := fieldConfig.type
        args := defineArguments (fieldConfig.args.getD [])
        resolve := getProp fieldConfig.resolve
        subscribe := getProp fieldConfig.subscribe
        deprecationReason := getProp fieldConfig.deprecationReason
        extensions := jsAnd (getProp fieldConfig.extensions) toObjMap
        astNode := getProp fieldConfig.astNode }
  else
    .error (.invalidFieldResolver typeName fieldName
      (getProp fieldConfig.resolve))

/-- `defineFieldMap(config)` shared by object and interface types, over the
view `(config.name, config.fields)`: resolves the fields thunk, then
normalizes each entry. -/
def defineFieldMap (typeName : String)
    (fields : ThunkOrValue (List (String × GraphQLFieldConfig)))
    (env : JSEnv) : Except GError (List (String × GraphQLField)) :=
  let fieldMap := resolveThunk fields env
  mapValueE fieldMap (defineField typeName)

/-- One normalized field back to config shape (`name` dropped — it is the
key). -/
def fieldToFieldConfig (field : GraphQLField) : GraphQLFieldConfig :=
  { description := some field.description
    type := field.type
    args := some (argsToArgsConfig field.args)
    resolve := some field.resolve
    subscribe := some field.subscribe
    deprecationReason := some field.deprecationReason
    extensions := some field.extensions
    astNode := some field.astNode }

/-- `fieldsToFieldsConfig(fields)`: each normalized field back to config
shape (`mapValue`, keys kept). -/
def fieldsToFieldsConfig (fields : List (String × GraphQLField)) :
    List (String × GraphQLFieldConfig) :=
  fields.map (fun p => (p.1, fieldToFieldConfig p.2))

/-! ### Input fields -/

/-- `GraphQLInputFieldConfig` (raw).  The `resolve` field models a
resolver-shaped property that a configuration record may carry even though
the type does not declare one: `none` means the property is absent, `some
v` that it is present with value `v` (`'resolve' in fieldConfig` tests
presence only). -/
structure GraphQLInputFieldConfig where
  description : Option JSValue := none
  type : GType
  defaultValue : Option JSValue := none
  deprecationReason : Option JSValue := none
  extensions : Option JSValue := none
  astNode : Option JSValue := none
  resolve : Option JSValue := none
deriving DecidableEq, Repr

/-- `GraphQLInputField` (normalized). -/
structure GraphQLInputField where
  name : String
  description : JSValue
  type : GType
  defaultValue : JSValue
  deprecationReason : JSValue
  extensions : JSValue
  astNode : JSValue
deriving DecidableEq, Repr

/-- The per-entry body of `defineInputFieldMap`: first checks
`devAssert(!('resolve' in fieldConfig))` — the presence of the property is
itself the violation — and only then builds the record. -/
def defineInputField (typeName fieldName : String)
    (fieldConfig : GraphQLInputFieldConfig) : Except GError GraphQLInputField :=
  if fieldConfig.resolve.isSome then
    .error (.resolverOnInputField typeName fieldName)
  else
    .ok
      { name := fieldName
        description := getProp fieldConfig.description
        type := fieldConfig.type
        defaultValue := getProp fieldConfig.defaultValue
        deprecationReason := getProp fieldConfig.deprecationReason
        extensions := jsAnd (getProp fieldConfig.extensions) toObjMap
        astNode := getProp fieldConfig.astNode }

/-- `defineInputFieldMap(config)` over the view `(config.name,
config.fields)`: resolves the thunk, then normalizes each entry. -/
def defineInputFieldMap (typeName : String)
    (fields : ThunkOrValue (List (String × GraphQLInputFieldConfig)))
    (env : JSEnv) : Except GError (List (String × GraphQLInputField)) :=
  let fieldMap := resolveThunk fields env
  mapValueE fieldMap (defineInputField typeName)

/-- `isRequiredInputField(field) = isNonNullType(field.type) &&
field.defaultValue === undefined`. -/
def isRequiredInputField (field : GraphQLInputField) : Bool :=
  isNonNullType field.type && decide (field.defaultValue = JSValue.undefined)

/-- `NonNull(Int)` argument with no default. -/
def argNonNullNoDefault : GraphQLArgument :=
  { name := "a", description := .undefined, type := .nonNull (.scalar "Int"),
    defaultValue := .undefined, deprecationReason := .undefined,
    extensions := .undefined, astNode := .undefined }

/-- `NonNull(Int)` argument with default `0`. -/
def argNonNullDefaultZero : GraphQLArgument :=
  { argNonNullNoDefault with defaultValue := .num 0 }

/-- Nullable `Int` argument with no default. -/
def argNullableNoDefault : GraphQLArgument :=
  { argNonNullNoDefault with type := .scalar "Int" }

/-- `NonNull(Int)` input field with default `null`. -/
def inputFieldDefaultNull : GraphQLInputField :=
  { name := "f", description := .undefined, type := .nonNull (.scalar "Int"),
    defaultValue := .null, deprecationReason := .undefined,
    extensions := .undefined, astNode := .undefined }

/-- A resolver-free input field configuration. -/
def inputFieldCleanConfig : GraphQLInputFieldConfig :=
  { type := .scalar "Float" }

/-- An input field configuration carrying `resolve: null` — the property is
present, so it must be rejected even though its value is `null`. -/
def inputFieldResolveNullConfig : GraphQLInputFieldConfig :=
  { type := .scalar "Float", resolve := some .null }

/-! ### Lazy thunk cells and the types that own them

`this._fields` (and `_interfaces`, `_types`) holds either the bound
normalizer closure (a function) or the already-computed collection; the
accessor checks `typeof === 'function'`, invokes and overwrites on first
access, and returns the stored collection afterwards.  When the producer
throws, the assignment does not happen and the slot stays pending.
JavaScript mutation of `this` is modelled by returning the updated owner
alongside the result. -/

/-- A lazily-resolved slot: pending producer or resolved collection.  The
resolved collection is a plain object/array (guaranteed by the normalizer's
`devAssert`s), never a function, which the `value` constructor encodes. -/
inductive LazyCellE (α : Type) where
  | thunk (producer : JSEnv → Except GError α) : LazyCellE α
  | value (v : α) : LazyCellE α

/-- One accessor call on a slot: `if (typeof slot === 'function') slot =
slot();` then return the stored collection.  A throw leaves the slot
pending. -/
def LazyCellE.force {α : Type} (c : LazyCellE α) (env : JSEnv) :
    Except GError α × LazyCellE α :=
  match c with
  | .thunk producer =>
    match producer env with
    | .ok v => (.ok v, .value v)
    | .error e => (.error e, .thunk producer)
  | .value v => (.ok v, .value v)

/-- `defineInterfaces(config)`: `resolveArrayThunk(config.interfaces ?? [])`
(the `Array.isArray` assert is enforced by the model's types).  Interface
references are held as opaque `GType` references: the constructor and
`toConfig` never inspect them. -/
def defineInterfaces (interfaces : Option (ThunkOrValue (List GType)))
    (env : JSEnv) : Except GError (List GType) :=
  .ok (resolveThunk (interfaces.getD (.value [])) env)

/-- `GraphQLObjectTypeConfig`. -/
structure GraphQLObjectTypeConfig where
  name : String
  description : Option JSValue := none
  interfaces : Option (ThunkOrValue (List GType)) := none
  fields : ThunkOrValue (List (String × GraphQLFieldConfig))
  isTypeOf : Option JSValue := none
  extensions : Option JSValue := none
  astNode : Option JSValue := none
  extensionASTNodes : Option JSValue := none

/-- `GraphQLObjectType`. -/
structure GraphQLObjectType where
  name : String
  description : JSValue
  isTypeOf : JSValue
  extensions : JSValue
  astNode : JSValue
  extensionASTNodes : JSValue
  _fields : LazyCellE (List (String × GraphQLField))
  _interfaces : LazyCellE (List GType)

/-- The `GraphQLObjectType` constructor: stores identity fields, binds the
two normalizers as pending thunks, and `devAssert`s that `isTypeOf` is
null-or-function. -/
def mkObjectType (config : GraphQLObjectTypeConfig) :
    Except GError GraphQLObjectType :=
  if (getProp config.isTypeOf).isNullish ∨
      (getProp config.isTypeOf).isFunction then
    .ok
      { name := config.name
        description := getProp config.description
        isTypeOf := getProp config.isTypeOf
        extensions := jsAnd (getProp config.extensions) toObjMap
        astNode := getProp config.astNode
        extensionASTNodes :=
          jsCoalesce (getProp config.extensionASTNodes) emptyArray
        _fields := .thunk (defineFieldMap config.name config.fields)
        _interfaces := .thunk (defineInterfaces config.interfaces) }
  else .error (.invalidIsTypeOf config.name (getProp config.isTypeOf))

/-- `getFields()` on an object type. -/
def GraphQLObjectType.getFields (t : GraphQLObjectType) (env : JSEnv) :
    Except GError (List (String × GraphQLField)) × GraphQLObjectType :=
  ((t._fields.force env).1, { t with _fields := (t._fields.force env).2 })

/-- `getInterfaces()` on an object type. -/
def GraphQLObjectType.getInterfaces (t : GraphQLObjectType) (env : JSEnv) :
    Except GError (List GType) × GraphQLObjectType :=
  ((t._interfaces.force env).1,
    { t with _interfaces := (t._interfaces.force env).2 })

/-- `defineTypes(config)` for unions: `resolveArrayThunk(config.types)`
(the `Array.isArray` assert is enforced by the model's types).  Member
object types are held as opaque `GType` references. -/
def defineTypes (types : ThunkOrValue (List GType)) (env : JSEnv) :
    Except GError (List GType) :=
  .ok (resolveThunk types env)

/-- `GraphQLUnionTypeConfig`. -/
structure GraphQLUnionTypeConfig where
  name : String
  description : Option JSValue := none
  types : ThunkOrValue (List GType)
  resolveType : Option JSValue := none
  extensions : Option JSValue := none
  astNode : Option JSValue := none
  extensionASTNodes : Option JSValue := none

/-- `GraphQLUnionType`. -/
structure GraphQLUnionType where
  name : String
  description : JSValue
  resolveType : JSValue
  extensions : JSValue
  astNode : JSValue
  extensionASTNodes : JSValue
  _types : LazyCellE (List GType)

/-- The `GraphQLUnionType` constructor. -/
def mkUnionType (config : GraphQLUnionTypeConfig) :
    Except GError GraphQLUnionType :=
  if (getProp config.resolveType).isNullish ∨
      (getProp config.resolveType).isFunction then
    .ok
      { name := config.name
        description := getProp config.description
        resolveType := getProp config.resolveType
        extensions := jsAnd (getProp config.extensions) toObjMap
        astNode := getProp config.astNode
        extensionASTNodes :=
          jsCoalesce (getProp config.extensionASTNodes) emptyArray
        _types := .thunk (defineTypes config.types) }
  else .error (.invalidResolveType config.name (getProp config.resolveType))

/-- `getTypes()` on a union type. -/
def GraphQLUnionType.getTypes (u : GraphQLUnionType) (env : JSEnv) :
    Except GError (List GType) × GraphQLUnionType :=
  ((u._types.force env).1, { u with _types := (u._types.force env).2 })

/-- A sequence of `getFields()` calls, each under its own snapshot of the
external environment, returning every call's result, the final state of the
owner, and how many times the pending producer was entered. -/
def runGetFields (t : GraphQLObjectType) :
    List JSEnv →
      List (Except GError (List (String × GraphQLField))) ×
        GraphQLObjectType × Nat
  | [] => ([], t, 0)
  | env :: envs =>
    let wasPending : Nat := match t._fields with | .thunk _ => 1 | .value _ => 0
    let step := t.getFields env
    let rest := runGetFields step.2 envs
    (step.1 :: rest.1, rest.2.1, wasPending + rest.2.2)

/-- A sequence of `getTypes()` calls on a union type, instrumented the same
way. -/
def runGetTypes (u : GraphQLUnionType) :
    List JSEnv →
      List (Except GError (List GType)) × GraphQLUnionType × Nat
  | [] => ([], u, 0)
  | env :: envs =>
    let wasPending : Nat := match u._types with | .thunk _ => 1 | .value _ => 0
    let step := u.getTypes env
    let rest := runGetTypes step.2 envs
    (step.1 :: rest.1, rest.2.1, wasPending + rest.2.2)

/-- A concrete field record for the C7 witness. -/
def lazyWitnessField : GraphQLField :=
  { name := "a", description := .undefined, type := .scalar "Int", args := [],
    resolve := .undefined, subscribe := .undefined,
    deprecationReason := .undefined, extensions := .undefined,
    astNode := .undefined }

/-- An object type whose pending fields producer depends on the external
environment: it yields the field only under the initial snapshot `0`. -/
def lazyWitnessObject : GraphQLObjectType :=
  { name := "T", description := .undefined, isTypeOf := .undefined,
    extensions := .undefined, astNode := .undefined,
    extensionASTNodes := emptyArray,
    _fields := .thunk (fun env =>
      .ok (if env = 0 then [("a", lazyWitnessField)] else [])),
    _interfaces := .thunk (fun env =>
      .ok (if env = 0 then [.interface "Named"] else [])) }
/-! ### Scalar type definition -/

/-- `JSValue` test `typeof v === 'string'`. -/
def JSValue.isString : JSValue → Bool
  | .str _ => true
  | _ => false

/-- The stored `parseLiteral` of a scalar: either the raw configured
property value, or the default closure
`(node, variables) => parseValue(valueFromASTUntyped(node, variables))`
derived from the (already-defaulted) `parseValue`. -/
inductive ScalarLiteralParser where
  | raw (f : JSValue) : ScalarLiteralParser
  | derived (parseValue : JSValue) : ScalarLiteralParser
deriving DecidableEq, Repr

/-- Nullishness of a `parseLiteral` property value (the derived closure is
a function, never nullish). -/
def ScalarLiteralParser.isNullish : ScalarLiteralParser → Bool
  | .raw f => f.isNullish
  | .derived _ => false

/-- Truthiness of a `parseLiteral` property value. -/
def ScalarLiteralParser.isTruthy : ScalarLiteralParser → Bool
  | .raw f => f.isTruthy
  | .derived _ => true

/-- `typeof === 'function'` on a `parseLiteral` property value. -/
def ScalarLiteralParser.isFunction : ScalarLiteralParser → Bool
  | .raw f => f.isFunction
  | .derived _ => true

/-- Truthiness of the possibly-absent `parseLiteral` property
(an absent property reads as `undefined`, which is falsy). -/
def plPropTruthy : Option ScalarLiteralParser → Bool
  | some p => p.isTruthy
  | none => false

/-- `typeof === 'function'` of the possibly-absent `parseLiteral`
property. -/
def plPropFunction : Option ScalarLiteralParser → Bool
  | some p => p.isFunction
  | none => false

/-- `GraphQLScalarTypeConfig`. -/
structure GraphQLScalarTypeConfig where
  name : String
  description : Option JSValue := none
  specifiedByURL : Option JSValue := none
  serialize : Option JSValue := none
  parseValue : Option JSValue := none
  parseLiteral : Option ScalarLiteralParser := none
  extensions : Option JSValue := none
  astNode : Option JSValue := none
  extensionASTNodes : Option JSValue := none
deriving DecidableEq, Repr

/-- `GraphQLScalarType`. -/
structure GraphQLScalarType where
  name : String
  description : JSValue
  specifiedByURL : JSValue
  serialize : JSValue
  parseValue : JSValue
  parseLiteral : ScalarLiteralParser
  extensions : JSValue
  astNode : JSValue
  extensionASTNodes : JSValue
deriving DecidableEq, Repr

/-- The `parseLiteral` value stored by the scalar constructor. -/
def storedParseLiteral (cfgPL : Option ScalarLiteralParser) (pv : JSValue) :
    ScalarLiteralParser :=
  match cfgPL with
  | some p => if p.isNullish then .derived pv else p
  | none => .derived pv

/-- The `GraphQLScalarType` constructor: defaults `serialize`/`parseValue`
to `identityFunc`, derives `parseLiteral` from `parseValue` when absent,
and runs the `devAssert`s in source order (`specifiedByURL` null-or-string,
`serialize` null-or-function, and — when a `parseLiteral` is given — the
requirement that `parseValue` and `parseLiteral` are both functions). -/
def mkScalarType (config : GraphQLScalarTypeConfig) :
    Except GError GraphQLScalarType :=
  if ¬((getProp config.specifiedByURL).isNullish ∨
      (getProp config.specifiedByURL).isString) then
    .error (.scalarBadSpecifiedByURL config.name (getProp config.specifiedByURL))
  else if ¬((getProp config.serialize).isNullish ∨
      (getProp config.serialize).isFunction) then
    .error (.scalarBadSerialize config.name)
  else if plPropTruthy config.parseLiteral &&
      !((getProp config.parseValue).isFunction &&
        plPropFunction config.parseLiteral) then
    .error (.scalarMissingParsePair config.name)
  else
    .ok
      { name := config.name
        description := getProp config.description
        specifiedByURL := getProp config.specifiedByURL
        serialize := jsCoalesce (getProp config.serialize) identityFunc
        parseValue := jsCoalesce (getProp config.parseValue) identityFunc
        parseLiteral := storedParseLiteral config.parseLiteral
          (jsCoalesce (getProp config.parseValue) identityFunc)
        extensions := jsAnd (getProp config.extensions) toObjMap
        astNode := getProp config.astNode
        extensionASTNodes :=
          jsCoalesce (getProp config.extensionASTNodes) emptyArray }

/-- `toConfig()` for scalars: every stored field verbatim. -/
def GraphQLScalarType.toConfig (s : GraphQLScalarType) :
    GraphQLScalarTypeConfig :=
  { name := s.name
    description := some s.description
    specifiedByURL := some s.specifiedByURL
    serialize := some s.serialize
    parseValue := some s.parseValue
    parseLiteral := some s.parseLiteral
    extensions := some s.extensions
    astNode := some s.astNode
    extensionASTNodes := some s.extensionASTNodes }

/-! ### Interface type definition -/

/-- `GraphQLInterfaceTypeConfig`. -/
structure GraphQLInterfaceTypeConfig where
  name : String
  description : Option JSValue := none
  interfaces : Option (ThunkOrValue (List GType)) := none
  fields : ThunkOrValue (List (String × GraphQLFieldConfig))
  resolveType : Option JSValue := none
  extensions : Option JSValue := none
  astNode : Option JSValue := none
  extensionASTNodes : Option JSValue := none

/-- `GraphQLInterfaceType`. -/
structure GraphQLInterfaceType where
  name : String
  description : JSValue
  resolveType : JSValue
  extensions : JSValue
  astNode : JSValue
  extensionASTNodes : JSValue
  _fields : LazyCellE (List (String × GraphQLField))
  _interfaces : LazyCellE (List GType)

/-- The `GraphQLInterfaceType` constructor. -/
def mkInterfaceType (config : GraphQLInterfaceTypeConfig) :
    Except GError GraphQLInterfaceType :=
  if (getProp config.resolveType).isNullish ∨
      (getProp config.resolveType).isFunction then
    .ok
      { name := config.name
        description := getProp config.description
        resolveType := getProp config.resolveType
        extensions := jsAnd (getProp config.extensions) toObjMap
        astNode := getProp config.astNode
        extensionASTNodes :=
          jsCoalesce (getProp config.extensionASTNodes) emptyArray
        _fields := .thunk (defineFieldMap config.name config.fields)
        _interfaces := .thunk (defineInterfaces config.interfaces) }
  else .error (.invalidResolveType config.name (getProp config.resolveType))

/-- `getFields()` on an interface type. -/
def GraphQLInterfaceType.getFields (t : GraphQLInterfaceType) (env : JSEnv) :
    Except GError (List (String × GraphQLField)) × GraphQLInterfaceType :=
  ((t._fields.force env).1, { t with _fields := (t._fields.force env).2 })

/-- `getInterfaces()` on an interface type. -/
def GraphQLInterfaceType.getInterfaces (t : GraphQLInterfaceType)
    (env : JSEnv) : Except GError (List GType) × GraphQLInterfaceType :=
  ((t._interfaces.force env).1,
    { t with _interfaces := (t._interfaces.force env).2 })

/-! ### Input object type definition -/

/-- `GraphQLInputObjectTypeConfig`. -/
structure GraphQLInputObjectTypeConfig where
  name : String
  description : Option JSValue := none
  fields : ThunkOrValue (List (String × GraphQLInputFieldConfig))
  extensions : Option JSValue := none
  astNode : Option JSValue := none
  extensionASTNodes : Option JSValue := none

/-- `GraphQLInputObjectType`. -/
structure GraphQLInputObjectType where
  name : String
  description : JSValue
  extensions : JSValue
  astNode : JSValue
  extensionASTNodes : JSValue
  _fields : LazyCellE (List (String × GraphQLInputField))

/-- The `GraphQLInputObjectType` constructor (no assert beyond the typed
name). -/
def mkInputObjectType (config : GraphQLInputObjectTypeConfig) :
    GraphQLInputObjectType :=
  { name := config.name
    description := getProp config.description
    extensions := jsAnd (getProp config.extensions) toObjMap
    astNode := getProp config.astNode
    extensionASTNodes := jsCoalesce (getProp config.extensionASTNodes) emptyArray
    _fields := .thunk (defineInputFieldMap config.name config.fields) }

/-- `getFields()` on an input object type. -/
def GraphQLInputObjectType.getFields (t : GraphQLInputObjectType)
    (env : JSEnv) :
    Except GError (List (String × GraphQLInputField)) × GraphQLInputObjectType :=
  ((t._fields.force env).1, { t with _fields := (t._fields.force env).2 })

/-- A sequence of `getInterfaces()` calls on an object type, instrumented
the same way. -/
def runObjectGetInterfaces (t : GraphQLObjectType) :
    List JSEnv →
      List (Except GError (List GType)) × GraphQLObjectType × Nat
  | [] => ([], t, 0)
  | env :: envs =>
    let wasPending : Nat :=
      match t._interfaces with | .thunk _ => 1 | .value _ => 0
    let step := t.getInterfaces env
    let rest := runObjectGetInterfaces step.2 envs
    (step.1 :: rest.1, rest.2.1, wasPending + rest.2.2)

/-- A sequence of `getFields()` calls on an interface type, instrumented
the same way. -/
def runInterfaceGetFields (t : GraphQLInterfaceType) :
    List JSEnv →
      List (Except GError (List (String × GraphQLField))) ×
        GraphQLInterfaceType × Nat
  | [] => ([], t, 0)
  | env :: envs =>
    let wasPending : Nat := match t._fields with | .thunk _ => 1 | .value _ => 0
    let step := t.getFields env
    let rest := runInterfaceGetFields step.2 envs
    (step.1 :: rest.1, rest.2.1, wasPending + rest.2.2)

/-- A sequence of `getInterfaces()` calls on an interface type,
instrumented the same way. -/
def runInterfaceGetInterfaces (t : GraphQLInterfaceType) :
    List JSEnv →
      List (Except GError (List GType)) × GraphQLInterfaceType × Nat
  | [] => ([], t, 0)
  | env :: envs =>
    let wasPending : Nat :=
      match t._interfaces with | .thunk _ => 1 | .value _ => 0
    let step := t.getInterfaces env
    let rest := runInterfaceGetInterfaces step.2 envs
    (step.1 :: rest.1, rest.2.1, wasPending + rest.2.2)

/-- A sequence of `getFields()` calls on an input object type, instrumented
the same way. -/
def runInputObjectGetFields (t : GraphQLInputObjectType) :
    List JSEnv →
      List (Except GError (List (String × GraphQLInputField))) ×
        GraphQLInputObjectType × Nat
  | [] => ([], t, 0)
  | env :: envs =>
    let wasPending : Nat := match t._fields with | .thunk _ => 1 | .value _ => 0
    let step := t.getFields env
    let rest := runInputObjectGetFields step.2 envs
    (step.1 :: rest.1, rest.2.1, wasPending + rest.2.2)

/-- An interface type with environment-dependent pending fields and
interfaces producers, for the C7 witness. -/
def lazyWitnessIface : GraphQLInterfaceType :=
  { name := "I", description := .undefined, resolveType := .undefined,
    extensions := .undefined, astNode := .undefined,
    extensionASTNodes := emptyArray,
    _fields := .thunk (fun env =>
      .ok (if env = 0 then [("a", lazyWitnessField)] else [])),
    _interfaces := .thunk (fun env =>
      .ok (if env = 0 then [.interface "Base"] else [])) }

/-- A union type with an environment-dependent pending members producer,
for the C7 witness. -/
def lazyWitnessUnion : GraphQLUnionType :=
  { name := "U", description := .undefined, resolveType := .undefined,
    extensions := .undefined, astNode := .undefined,
    extensionASTNodes := emptyArray,
    _types := .thunk (fun env =>
      .ok (if env = 0 then [.object "Dog"] else [])) }

/-- A concrete input field record for the C7 witness. -/
def lazyWitnessInputField : GraphQLInputField :=
  { name := "lat", description := .undefined, type := .scalar "Float",
    defaultValue := .undefined, deprecationReason := .undefined,
    extensions := .undefined, astNode := .undefined }

/-- An input object type with an environment-dependent pending fields
producer, for the C7 witness. -/
def lazyWitnessInput : GraphQLInputObjectType :=
  { name := "P", description := .undefined, extensions := .undefined,
    astNode := .undefined, extensionASTNodes := emptyArray,
    _fields := .thunk (fun env =>
      .ok (if env = 0 then [("lat", lazyWitnessInputField)] else [])) }

/-! ### Config round-trip (`toConfig`) for the thunk-bearing kinds -/

/-- `toConfig()` for object types: forces `getInterfaces()` then
`getFields()` (the object-literal evaluation order of the source), copies
identity fields verbatim, and re-expresses the resolved collections via
`fieldsToFieldsConfig`. -/
def GraphQLObjectType.toConfig (t : GraphQLObjectType) (env : JSEnv) :
    Except GError (GraphQLObjectTypeConfig × GraphQLObjectType) :=
  match t.getInterfaces env with
  | (.error e, _) => .error e
  | (.ok interfaces, t1) =>
    match t1.getFields env with
    | (.error e, _) => .error e
    | (.ok fields, t2) =>
      .ok
        ({ name := t2.name
           description := some t2.description
           interfaces := some (.value interfaces)
           fields := .value (fieldsToFieldsConfig fields)
           isTypeOf := some t2.isTypeOf
           extensions := some t2.extensions
           astNode := some t2.astNode
           extensionASTNodes := some t2.extensionASTNodes }, t2)

/-- `toConfig()` for interface types. -/
def GraphQLInterfaceType.toConfig (t : GraphQLInterfaceType) (env : JSEnv) :
    Except GError (GraphQLInterfaceTypeConfig × GraphQLInterfaceType) :=
  match t.getInterfaces env with
  | (.error e, _) => .error e
  | (.ok interfaces, t1) =>
    match t1.getFields env with
    | (.error e, _) => .error e
    | (.ok fields, t2) =>
      .ok
        ({ name := t2.name
           description := some t2.description
           interfaces := some (.value interfaces)
           fields := .value (fieldsToFieldsConfig fields)
           resolveType := some t2.resolveType
           extensions := some t2.extensions
           astNode := some t2.astNode
           extensionASTNodes := some t2.extensionASTNodes }, t2)

/-- `toConfig()` for union types. -/
def GraphQLUnionType.toConfig (u : GraphQLUnionType) (env : JSEnv) :
    Except GError (GraphQLUnionTypeConfig × GraphQLUnionType) :=
  match u.getTypes env with
  | (.error e, _) => .error e
  | (.ok types, u1) =>
    .ok
      ({ name := u1.name
         description := some u1.description
         types := .value types
         resolveType := some u1.resolveType
         extensions := some u1.extensions
         astNode := some u1.astNode
         extensionASTNodes := some u1.extensionASTNodes }, u1)

/-- `toConfig()` for input object types: forces `getFields()` and
re-expresses each field as a configuration record carrying `description`,
`type`, `defaultValue`, `extensions` and `astNode` — the source emits no
`deprecationReason` (and of course no `resolve`) for input fields. -/
def inputFieldToConfig (field : GraphQLInputField) : GraphQLInputFieldConfig :=
  { description := some field.description
    type := field.type
    defaultValue := some field.defaultValue
    extensions := some field.extensions
    astNode := some field.astNode }

/-- `toConfig()` for input object types (continued): forces `getFields()`
and maps each field through `inputFieldToConfig`. -/
def GraphQLInputObjectType.toConfig (t : GraphQLInputObjectType)
    (env : JSEnv) :
    Except GError (GraphQLInputObjectTypeConfig × GraphQLInputObjectType) :=
  match t.getFields env with
  | (.error e, _) => .error e
  | (.ok fields, t1) =>
    .ok
      ({ name := t1.name
         description := some t1.description
         fields := .value (fields.map (fun p => (p.1, inputFieldToConfig p.2)))
         extensions := some t1.extensions
         astNode := some t1.astNode
         extensionASTNodes := some t1.extensionASTNodes }, t1)

/-! ### Construct-and-force builders

"Constructing a type from configuration C, forcing all lazy parts": the
constructor followed by the forcing accessors. -/

/-- Construct an object type and force interfaces and fields. -/
def buildObjectType (config : GraphQLObjectTypeConfig) (env : JSEnv) :
    Except GError GraphQLObjectType :=
  match mkObjectType config with
  | .error e => .error e
  | .ok t =>
    match t.getInterfaces env with
    | (.error e, _) => .error e
    | (.ok _, t1) =>
      match t1.getFields env with
      | (.error e, _) => .error e
      | (.ok _, t2) => .ok t2

/-- Construct an interface type and force interfaces and fields. -/
def buildInterfaceType (config : GraphQLInterfaceTypeConfig) (env : JSEnv) :
    Except GError GraphQLInterfaceType :=
  match mkInterfaceType config with
  | .error e => .error e
  | .ok t =>
    match t.getInterfaces env with
    | (.error e, _) => .error e
    | (.ok _, t1) =>
      match t1.getFields env with
      | (.error e, _) => .error e
      | (.ok _, t2) => .ok t2

/-- Construct a union type and force its member list. -/
def buildUnionType (config : GraphQLUnionTypeConfig) (env : JSEnv) :
    Except GError GraphQLUnionType :=
  match mkUnionType config with
  | .error e => .error e
  | .ok u =>
    match u.getTypes env with
    | (.error e, _) => .error e
    | (.ok _, u1) => .ok u1

/-- Construct an input object type and force its field map. -/
def buildInputObjectType (config : GraphQLInputObjectTypeConfig)
    (env : JSEnv) : Except GError GraphQLInputObjectType :=
  let t := mkInputObjectType config
  match t.getFields env with
  | (.error e, _) => .error e
  | (.ok _, t1) => .ok t1

/-- Concrete scalar configuration for the C4 witness. -/
def scalarCfgW : GraphQLScalarTypeConfig :=
  { name := "Odd", serialize := some (.fn 3) }

/-- The scalar constructed from `scalarCfgW`. -/
def scalarW : GraphQLScalarType :=
  { name := "Odd", description := .undefined, specifiedByURL := .undefined,
    serialize := .fn 3, parseValue := .fn 0, parseLiteral := .derived (.fn 0),
    extensions := .undefined, astNode := .undefined,
    extensionASTNodes := .arr 0 }

/-- Concrete enum configuration for the C4 witness (one explicit internal
value, one defaulted to its name). -/
def enumCfgW : GraphQLEnumTypeConfig :=
  { name := "RGB"
    values := [("RED", { value := some (.num 0) }), ("GREEN", {})] }

/-- A normalized field for the C4 object/interface witnesses. -/
def objFieldW : GraphQLField :=
  { name := "id", description := .undefined, type := .nonNull (.scalar "ID"),
    args := [], resolve := .undefined, subscribe := .undefined,
    deprecationReason := .undefined, extensions := .undefined,
    astNode := .undefined }

/-- Concrete object configuration for the C4 witness. -/
def objCfgW : GraphQLObjectTypeConfig :=
  { name := "Query", fields := .value [("id", { type := .nonNull (.scalar "ID") })] }

/-- The forced object type built from `objCfgW`. -/
def objW : GraphQLObjectType :=
  { name := "Query", description := .undefined, isTypeOf := .undefined,
    extensions := .undefined, astNode := .undefined,
    extensionASTNodes := .arr 0,
    _fields := .value [("id", objFieldW)], _interfaces := .value [] }

/-- Concrete interface configuration for the C4 witness. -/
def ifaceCfgW : GraphQLInterfaceTypeConfig :=
  { name := "Node", fields := .value [("id", { type := .nonNull (.scalar "ID") })] }

/-- The forced interface type built from `ifaceCfgW`. -/
def ifaceW : GraphQLInterfaceType :=
  { name := "Node", description := .undefined, resolveType := .undefined,
    extensions := .undefined, astNode := .undefined,
    extensionASTNodes := .arr 0,
    _fields := .value [("id", objFieldW)], _interfaces := .value [] }

/-- Concrete union configuration for the C4 witness. -/
def unionCfgW : GraphQLUnionTypeConfig :=
  { name := "Pet", types := .value [.object "Dog", .object "Cat"] }

/-- The forced union type built from `unionCfgW`. -/
def unionW : GraphQLUnionType :=
  { name := "Pet", description := .undefined, resolveType := .undefined,
    extensions := .undefined, astNode := .undefined,
    extensionASTNodes := .arr 0,
    _types := .value [.object "Dog", .object "Cat"] }

/-- A normalized input field for the C4 witness. -/
def inputFieldW : GraphQLInputField :=
  { name := "lat", description := .undefined,
    type := .nonNull (.scalar "Float"), defaultValue := .undefined,
    deprecationReason := .undefined, extensions := .undefined,
    astNode := .undefined }

/-- Concrete input object configuration for the C4 witness. -/
def inputCfgW : GraphQLInputObjectTypeConfig :=
  { name := "GeoPoint"
    fields := .value [("lat", { type := .nonNull (.scalar "Float") })] }

/-- The forced input object type built from `inputCfgW`. -/
def inputW : GraphQLInputObjectType :=
  { name := "GeoPoint", description := .undefined, extensions := .undefined,
    astNode := .undefined, extensionASTNodes := .arr 0,
    _fields := .value [("lat", inputFieldW)] }

/-! ### Classifier lemmas -/

theorem isType_true (t : GType) : isType t = true := by
  cases t <;> rfl

theorem isNullableType_eq_not_isNonNull (t : GType) :
    isNullableType t = !isNonNullType t := by
  cases t <;> rfl

theorem unwrapAll_named (t : GType) (h : isNamedType t = true) :
    unwrapAll t = t := by
  cases t <;> simp_all [isNamedType, unwrapAll, isScalarType, isObjectType,
    isInterfaceType, isUnionType, isEnumType, isInputObjectType]

theorem unwrapAll_applyWrappers (ws : List Bool) (t : GType)
    (h : isNamedType t = true) : unwrapAll (applyWrappers ws t) = t := by
  induction ws with
  | nil => simpa [applyWrappers] using unwrapAll_named t h
  | cons b rest ih => cases b <;> simpa [applyWrappers, unwrapAll] using ih

theorem unwraps_unwrapAll (t : GType) : Unwraps t (unwrapAll t) := by
  induction t with
  | list ofType ih => exact Unwraps.list _ _ ih
  | nonNull ofType ih => exact Unwraps.nonNull _ _ ih
  | _ => exact Unwraps.refl _

/-- C3: for every type `T`, constructing `NonNull(T)` succeeds iff `T` is a
nullable type, i.e. any of the eight kinds except `NonNull`; in particular
`NonNull(NonNull(T))` fails with the nullability-invariant error for every
named type `T`, and the failure is the synchronous `devAssert` throw of the
constructor (modelled by `Except.error`). -/
theorem nonNull_constructor_iff_nullable :
    (∀ t : GType,
      mkGraphQLNonNull t = .ok (.nonNull t) ↔ isNullableType t = true) ∧
    (∀ t : GType, isNullableType t = !isNonNullType t) ∧
    (∀ t : GType, isNamedType t = true →
      mkGraphQLNonNull (.nonNull t) =
        .error ("Expected " ++ (GType.nonNull t).toStr ++
          " to be a GraphQL nullable type.")) ∧
    (∀ t : GType, isNullableType t = false →
      mkGraphQLNonNull t =
        .error ("Expected " ++ t.toStr ++ " to be a GraphQL nullable type.")) := by
  refine ⟨fun t => ?_, isNullableType_eq_not_isNonNull, fun t _ => ?_, fun t h => ?_⟩
  · constructor
    · intro h
      by_contra hc
      simp only [mkGraphQLNonNull] at h
      rw [Bool.not_eq_true] at hc
      rw [hc] at h
      simp at h
    · intro h
      simp [mkGraphQLNonNull, h]
  · have : isNullableType (.nonNull t) = false := by
      rw [isNullableType_eq_not_isNonNull]; rfl
    simp [mkGraphQLNonNull, this]
  · simp [mkGraphQLNonNull, h]

/-- Witness for C3 at concrete types: `NonNull(Enum E)` constructs, and
`NonNull(NonNull(Scalar Int))` fails with the nullability error. -/
theorem nonNull_constructor_iff_nullable_witness :
    mkGraphQLNonNull (.enum "E") = .ok (.nonNull (.enum "E")) ∧
    mkGraphQLNonNull (.nonNull (.scalar "Int")) =
      .error "Expected Int! to be a GraphQL nullable type." := by
  constructor
  · exact (nonNull_constructor_iff_nullable.1 (.enum "E")).2 (by decide)
  · exact nonNull_constructor_iff_nullable.2.2.1 (.scalar "Int") (by decide)

/-- C8: `getNullableType` strips exactly one outer `NonNull` layer and is the
identity on every other type; `getNamedType` applied to any number of
`List`/`NonNull` layers around a named type `T` returns `T`; both propagate
absent input as absent; both only follow existing `ofType` references
(`Unwraps`), allocating no new types.  (Both are total Lean functions, so
termination for every finite wrapping depth is inherent.) -/
theorem wrapping_resolver_spec :
    getNullableType none = none ∧
    getNamedType none = none ∧
    (∀ t : GType, getNullableType (some (.nonNull t)) = some t) ∧
    (∀ t : GType, isNonNullType t = false → getNullableType (some t) = some t) ∧
    (∀ (ws : List Bool) (t : GType), isNamedType t = true →
      getNamedType (some (applyWrappers ws t)) = some t) ∧
    (∀ t : GType, Unwraps t (unwrapAll t)) ∧
    (∀ t u : GType, getNullableType (some t) = some u → Unwraps t u) := by
  refine ⟨rfl, rfl, fun t => rfl, fun t h => ?_, fun ws t h => ?_,
    unwraps_unwrapAll, fun t u h => ?_⟩
  · cases t <;> simp_all [getNullableType, isNonNullType]
  · simp [getNamedType, unwrapAll_applyWrappers ws t h]
  · cases t <;> simp_all [getNullableType]
    case nonNull ofType => exact Unwraps.nonNull _ _ (Unwraps.refl _)
    all_goals exact Unwraps.refl _

/-- Witness for C8 at concrete inputs: stripping `Int!` gives `Int`,
identity on the nullable `E`, and `getNamedType` of `[[Int!]]!` is `Int`. -/
theorem wrapping_resolver_spec_witness :
    getNullableType (some (.enum "E")) = some (.enum "E") ∧
    getNamedType
      (some (.nonNull (.list (.list (.nonNull (.scalar "Int")))))) =
      some (.scalar "Int") := by
  constructor
  · exact wrapping_resolver_spec.2.2.2.1 (.enum "E") (by decide)
  · have h := wrapping_resolver_spec.2.2.2.2.1
      [false, true, true, false] (.scalar "Int") (by decide)
    simpa [applyWrappers] using h

/-- C9: `isInputType` and `isOutputType` are each closed under wrapping: if
the predicate holds of `T`, it holds of `List(T)` and of `NonNull(T)`, for
both predicates independently. -/
theorem input_output_closed_under_wrapping :
    ∀ t : GType,
      (isInputType t = true →
        isInputType (.list t) = true ∧ isInputType (.nonNull t) = true) ∧
      (isOutputType t = true →
        isOutputType (.list t) = true ∧ isOutputType (.nonNull t) = true) := by
  intro t
  exact ⟨fun h => ⟨by simpa [isInputType] using h, by simpa [isInputType] using h⟩,
    fun h => ⟨by simpa [isOutputType] using h, by simpa [isOutputType] using h⟩⟩

/-- Witness for C9 at a concrete type: `Int` is both an input and an output
type, and so are `[Int]` and `Int!`. -/
theorem input_output_closed_under_wrapping_witness :
    isInputType (.list (.scalar "Int")) = true ∧
    isInputType (.nonNull (.scalar "Int")) = true ∧
    isOutputType (.list (.scalar "Int")) = true ∧
    isOutputType (.nonNull (.scalar "Int")) = true := by
  have h₁ := (input_output_closed_under_wrapping (.scalar "Int")).1 (by decide)
  have h₂ := (input_output_closed_under_wrapping (.scalar "Int")).2 (by decide)
  exact ⟨h₁.1, h₁.2, h₂.1, h₂.2⟩

theorem jsMapGet_nil {κ β : Type} [DecidableEq κ] (q : κ) :
    jsMapGet ([] : List (κ × β)) q = none := rfl

theorem jsMapGet_not_mem {κ β : Type} [DecidableEq κ]
    (l : List (κ × β)) (q : κ) (h : q ∉ l.map Prod.fst) :
    jsMapGet l q = none := by
  induction l with
  | nil => rfl
  | cons p rest ih =>
    simp only [List.map_cons, List.mem_cons] at h
    push_neg at h
    simp [jsMapGet, ih h.2, h.1]

theorem jsMapGet_mem {κ β : Type} [DecidableEq κ]
    (l : List (κ × β)) (q : κ) (v : β) (h : jsMapGet l q = some v) :
    (q, v) ∈ l ∧ q ∈ l.map Prod.fst := by
  induction l with
  | nil => simp [jsMapGet] at h
  | cons p rest ih =>
    simp only [jsMapGet] at h
    cases hr : jsMapGet rest q with
    | some r =>
      rw [hr] at h
      cases h
      have := ih hr
      exact ⟨List.mem_cons_of_mem _ this.1, by simp [this.2]⟩
    | none =>
      rw [hr] at h
      by_cases hq : q = p.1
      · simp only [hq, if_pos rfl] at h
        cases h
        refine ⟨?_, by simp [hq]⟩
        have hp : (q, p.2) = p := by cases p; simp_all
        rw [hp]
        exact List.mem_cons_self _ _
      · simp [hq] at h

theorem jsMapGet_isSome_of_mem {κ β : Type} [DecidableEq κ]
    (l : List (κ × β)) (q : κ) (h : q ∈ l.map Prod.fst) :
    (jsMapGet l q).isSome = true := by
  induction l with
  | nil => simp at h
  | cons p rest ih =>
    simp only [List.map_cons, List.mem_cons] at h
    simp only [jsMapGet]
    cases hr : jsMapGet rest q with
    | some r => simp
    | none =>
      rcases h with h | h
      · simp [h]
      · have := ih h
        rw [hr] at this
        simp at this

/-- Last-wins: looking up `q` returns the value of the last pair keyed `q`. -/
theorem jsMapGet_last_wins {κ β : Type} [DecidableEq κ]
    (l₁ l₂ : List (κ × β)) (q : κ) (v : β) (h : q ∉ l₂.map Prod.fst) :
    jsMapGet (l₁ ++ (q, v) :: l₂) q = some v := by
  induction l₁ with
  | nil => simp [jsMapGet, jsMapGet_not_mem l₂ q h]
  | cons p rest ih => simp [jsMapGet, ih]

/-- With pairwise-distinct keys, `jsMapGet` is ordinary association-list
lookup: the entry of the unique matching pair. -/
theorem jsMapGet_nodup {κ β : Type} [DecidableEq κ]
    (l : List (κ × β)) (q : κ) (v : β)
    (hnd : (l.map Prod.fst).Nodup) (hmem : (q, v) ∈ l) :
    jsMapGet l q = some v := by
  induction l with
  | nil => simp at hmem
  | cons p rest ih =>
    simp only [List.map_cons, List.nodup_cons] at hnd
    rcases List.mem_cons.mp hmem with h | h
    · subst h
      simp [jsMapGet, jsMapGet_not_mem rest q hnd.1]
    · have hq : q ∈ rest.map Prod.fst := by
        exact List.mem_map.mpr ⟨(q, v), h, rfl⟩
      have := ih hnd.2 h
      simp [jsMapGet, this]

theorem objSet_not_mem {β : Type} (m : List (String × β)) (k : String) (v : β)
    (h : k ∉ m.map Prod.fst) : objSet m k v = m ++ [(k, v)] := by
  have : m.any (fun p => p.1 = k) = false := by
    simp only [List.any_eq_false, decide_eq_true_eq]
    intro p hp hk
    exact h (List.mem_map.mpr ⟨p, hp, hk⟩)
  simp [objSet, this]

/-- With pairwise-distinct keys, `keyValMap` is just the list of
key/value pairs in input order. -/
theorem keyValMap_nodup {α β : Type} (l : List α) (keyFn : α → String)
    (valFn : α → β) (h : (l.map keyFn).Nodup) :
    keyValMap l keyFn valFn = l.map (fun a => (keyFn a, valFn a)) := by
  suffices H : ∀ acc : List (String × β),
      (∀ a ∈ l, keyFn a ∉ acc.map Prod.fst) →
      l.foldl (fun m a => objSet m (keyFn a) (valFn a)) acc =
        acc ++ l.map (fun a => (keyFn a, valFn a)) by
    simpa using H [] (by simp)
  induction l with
  | nil => intro acc _; simp
  | cons a rest ih =>
    intro acc hacc
    simp only [List.map_cons, List.nodup_cons] at h
    simp only [List.foldl_cons]
    rw [objSet_not_mem acc (keyFn a) (valFn a) (hacc a (by simp))]
    rw [ih h.2 (acc ++ [(keyFn a, valFn a)]) ?_]
    · simp
    · intro b hb
      simp only [List.map_append, List.mem_append]
      push_neg
      refine ⟨hacc b (by simp [hb]), ?_⟩
      simp only [List.map_cons, List.map_nil, List.mem_singleton]
      intro hc
      exact h.1 (hc ▸ List.mem_map.mpr ⟨b, hb, rfl⟩)

/-! ### Enum codec lemmas -/

theorem valueLookup_mem (e : GraphQLEnumType) (k : JSValue)
    (ev : GraphQLEnumValue) (h : e.valueLookup k = some ev) :
    ev ∈ e._values ∧ ev.value = k := by
  have := (jsMapGet_mem _ _ _ h).1
  rcases List.mem_map.mp this with ⟨v, hv, hveq⟩
  cases hveq
  exact ⟨hv, rfl⟩

theorem valueLookup_isSome (e : GraphQLEnumType) (ev : GraphQLEnumValue)
    (h : ev ∈ e._values) : (e.valueLookup ev.value).isSome = true := by
  apply jsMapGet_isSome_of_mem
  simp only [List.map_map]
  exact List.mem_map.mpr ⟨ev, h, rfl⟩

theorem valueLookup_last_wins (e : GraphQLEnumType)
    (l₁ l₂ : List GraphQLEnumValue) (ev : GraphQLEnumValue) (w : JSValue)
    (hsplit : e._values = l₁ ++ ev :: l₂) (hw : ev.value = w)
    (hafter : ∀ ev' ∈ l₂, ev'.value ≠ w) :
    e.valueLookup w = some ev := by
  unfold GraphQLEnumType.valueLookup
  rw [hsplit, List.map_append, List.map_cons, hw]
  apply jsMapGet_last_wins
  simp only [List.map_map, List.mem_map, Function.comp]
  rintro ⟨ev', hev', hval⟩
  exact hafter ev' hev' hval

theorem valueLookup_nodup (e : GraphQLEnumType) (ev : GraphQLEnumValue)
    (hnd : (e._values.map (fun v => v.value)).Nodup) (h : ev ∈ e._values) :
    e.valueLookup ev.value = some ev := by
  apply jsMapGet_nodup
  · simpa [List.map_map, Function.comp] using hnd
  · exact List.mem_map.mpr ⟨ev, h, rfl⟩

theorem nameLookup_mem (e : GraphQLEnumType) (k : String)
    (ev : GraphQLEnumValue) (h : e.nameLookup k = some ev) :
    ev ∈ e._values ∧ ev.name = k := by
  have := (jsMapGet_mem _ _ _ h).1
  rcases List.mem_map.mp this with ⟨v, hv, hveq⟩
  cases hveq
  exact ⟨hv, rfl⟩

theorem nameLookup_nodup (e : GraphQLEnumType) (ev : GraphQLEnumValue)
    (hnd : (e._values.map (fun v => v.name)).Nodup) (h : ev ∈ e._values) :
    e.nameLookup ev.name = some ev := by
  apply jsMapGet_nodup
  · simpa [List.map_map, Function.comp] using hnd
  · exact List.mem_map.mpr ⟨ev, h, rfl⟩

/-- Counterexample to C1 as stated: in `enumCollision`, the records named
`A` and `B` share internal value `0` with `A` registered first, yet
`serialize(0)` returns `"B"` — the name of the *last*-registered record,
not the first.  (`new Map(pairs)` overwrites on key collision, so the last
insertion wins.) -/
theorem enum_serialize_first_wins_counterexample :
    enumCollision._values.map (fun ev => (ev.name, ev.value)) =
      [("A", JSValue.num 0), ("B", JSValue.num 0)] ∧
    enumCollision.serialize (JSValue.num 0) = .ok "B" ∧
    ("B" : String) ≠ "A" := by
  refine ⟨rfl, rfl, by decide⟩

/-- C1 (amended): for every enum constructed from a value map in which two
differently-named value records share the same internal value, `serialize`
applied to that internal value returns the name of the **last**-registered
value record with that value, and records registered **earlier** with the
same internal value are unreachable by `serialize`. -/
theorem enum_serialize_last_registration_wins :
    ∀ (config : GraphQLEnumTypeConfig) (l₁ l₂ : List GraphQLEnumValue)
      (ev : GraphQLEnumValue) (w : JSValue),
      (mkEnumType config)._values = l₁ ++ ev :: l₂ →
      ev.value = w →
      (∀ ev' ∈ l₂, ev'.value ≠ w) →
      (mkEnumType config).serialize w = .ok ev.name ∧
      (∀ ev' ∈ l₁, ev'.value = w → ev'.name ≠ ev.name →
        (mkEnumType config).serialize w ≠ .ok ev'.name) := by
  intro config l₁ l₂ ev w hsplit hw hafter
  have hlook := valueLookup_last_wins (mkEnumType config) l₁ l₂ ev w hsplit hw hafter
  have hser : (mkEnumType config).serialize w = .ok ev.name := by
    simp [GraphQLEnumType.serialize, hlook]
  refine ⟨hser, fun ev' _ _ hne hcontra => ?_⟩
  rw [hser] at hcontra
  injection hcontra with hnames
  exact hne hnames.symm

/-- Witness for C1 (amended) on `enumCollision`: `serialize(0)` is `"B"`
and is not `"A"`. -/
theorem enum_serialize_last_registration_wins_witness :
    enumCollision.serialize (JSValue.num 0) = .ok "B" ∧
    enumCollision.serialize (JSValue.num 0) ≠ .ok "A" := by
  have h := enum_serialize_last_registration_wins enumCollisionConfig
    [enumCollisionA] [] enumCollisionB (.num 0)
    (by decide) (by decide) (by intro ev' h'; simp at h')
  have h2 := h.2 enumCollisionA (by simp) (by decide) (by decide)
  exact ⟨h.1, h2⟩

/-- Counterexample to C2 as stated: in `enumCollision` the value record
named `A` is registered with internal value `0`, but
`serialize(parseValue("A"))` is `"B"`, not `"A"`. -/
theorem enum_roundtrip_counterexample :
    enumCollision._values.map (fun ev => (ev.name, ev.value)) =
      [("A", JSValue.num 0), ("B", JSValue.num 0)] ∧
    enumCollision.parseValue (.str "A") = .ok (.num 0) ∧
    enumCollision.serialize (.num 0) = .ok "B" ∧
    ("B" : String) ≠ "A" := by
  refine ⟨rfl, rfl, rfl, by decide⟩

/-- C2 (amended): with the enum's value names distinct (always true for a
map-built enum), `parseValue(serialize(v)) == v` holds for every registered
value record `v`; and when additionally no two records share an internal
value, `serialize(parseValue(n)) == n` holds for every registered name `n`
(the half the counterexample refutes under value collision). -/
theorem enum_codec_roundtrip_amended :
    ∀ e : GraphQLEnumType,
      ((e._values.map (fun v => v.name)).Nodup →
        ∀ v ∈ e._values, ∃ n,
          e.serialize v.value = .ok n ∧ e.parseValue (.str n) = .ok v.value) ∧
      ((e._values.map (fun v => v.name)).Nodup →
        (e._values.map (fun v => v.value)).Nodup →
        ∀ v ∈ e._values,
          e.parseValue (.str v.name) = .ok v.value ∧
          e.serialize v.value = .ok v.name) := by
  intro e
  constructor
  · intro hnames v hv
    have hsome := valueLookup_isSome e v hv
    cases hlk : e.valueLookup v.value with
    | none => rw [hlk] at hsome; simp at hsome
    | some ev =>
      have hmem := valueLookup_mem e v.value ev hlk
      refine ⟨ev.name, by simp [GraphQLEnumType.serialize, hlk], ?_⟩
      have hname := nameLookup_nodup e ev hnames hmem.1
      simp [GraphQLEnumType.parseValue, GraphQLEnumType.getValue, hname, hmem.2]
  · intro hnames hvals v hv
    have hname := nameLookup_nodup e v hnames hv
    have hval := valueLookup_nodup e v hvals hv
    constructor
    · simp [GraphQLEnumType.parseValue, GraphQLEnumType.getValue, hname]
    · simp [GraphQLEnumType.serialize, hval]

/-- Witness for C2 (amended) on the collision-free `enumRGB`. -/
theorem enum_codec_roundtrip_amended_witness :
    enumRGB.parseValue (.str "RED") = .ok (.num 0) ∧
    enumRGB.serialize (.num 0) = .ok "RED" := by
  have h := (enum_codec_roundtrip_amended enumRGB).2
    (by decide) (by decide) enumRGBRed (by decide)
  exact h

/-- C10: for every enum value configuration entry, the constructed record's
internal value is the configured `value` property whenever it is present
with a value other than `undefined` (an explicit `null` is preserved), and
is the value's own name both when the property is omitted and when it is
present but explicitly `undefined`. -/
theorem enum_value_default_spec :
    ∀ (typeName : String) (valueMap : List (String × GraphQLEnumValueConfig))
      (n : String) (cfg : GraphQLEnumValueConfig),
      (n, cfg) ∈ valueMap →
      ∃ ev ∈ defineEnumValues typeName valueMap,
        ev.name = n ∧
        (∀ v, cfg.value = some v → v ≠ .undefined → ev.value = v) ∧
        (cfg.value = some .null → ev.value = .null) ∧
        (cfg.value = none → ev.value = .str n) ∧
        (cfg.value = some .undefined → ev.value = .str n) := by
  intro typeName valueMap n cfg hmem
  refine ⟨_, List.mem_map_of_mem _ hmem, rfl, ?_, ?_, ?_, ?_⟩
  · intro v hv hne
    simp [getProp, hv, hne]
  · intro hv
    simp [getProp, hv]
  · intro hv
    simp [getProp, hv]
  · intro hv
    simp [getProp, hv]

/-- Witness for C10 over the four configuration shapes: explicit number,
explicit `null`, omitted, and explicitly `undefined`. -/
theorem enum_value_default_spec_witness :
    ∃ ev ∈ defineEnumValues "E"
        [("W", { value := some (.num 3) }), ("X", { value := some .null }),
         ("Y", {}), ("Z", { value := some .undefined })],
      ev.name = "W" ∧ ev.value = .num 3 := by
  rcases enum_value_default_spec "E"
      [("W", { value := some (.num 3) }), ("X", { value := some .null }),
       ("Y", {}), ("Z", { value := some .undefined })]
      "W" { value := some (.num 3) } (by simp) with
    ⟨ev, hmem, hname, hval, _⟩
  exact ⟨ev, hmem, hname, hval (.num 3) rfl (by decide)⟩

/-! ### mapValueE lemmas -/

theorem mapValueE_ok_all {α β ε : Type} (l : List (String × α))
    (f : String → α → Except ε β) (g : String → α → β)
    (h : ∀ p ∈ l, f p.1 p.2 = .ok (g p.1 p.2)) :
    mapValueE l f = .ok (l.map (fun p => (p.1, g p.1 p.2))) := by
  induction l with
  | nil => rfl
  | cons p rest ih =>
    have hp := h p (by simp)
    have hr := ih (fun q hq => h q (by simp [hq]))
    cases p
    simp only [mapValueE, hp, hr, List.map_cons]
    rfl

theorem mapValueE_error_first {α β ε : Type}
    (pre : List (String × α)) (k : String) (a : α)
    (post : List (String × α)) (f : String → α → Except ε β) (e : ε)
    (hpre : ∀ p ∈ pre, ∃ b, f p.1 p.2 = .ok b) (hf : f k a = .error e) :
    mapValueE (pre ++ (k, a) :: post) f = .error e := by
  induction pre with
  | nil => simp only [List.nil_append, mapValueE, hf]; rfl
  | cons p rest ih =>
    rcases hpre p (by simp) with ⟨b, hb⟩
    have hr : mapValueE (rest.append ((k, a) :: post)) f = .error e :=
      ih (fun q hq => hpre q (by simp [hq]))
    cases p
    simp only [List.cons_append, mapValueE, hb, hr]
    rfl

/-- C5: an argument record (and likewise an input field record) is
classified as required iff its type is a `NonNull` wrapper at the outer
layer and no default value was supplied (`defaultValue === undefined`);
supplying any default value — including `0` or `null` — makes it not
required, and a nullable type is never required. -/
theorem required_iff_nonNull_and_no_default :
    (∀ arg : GraphQLArgument,
      isRequiredArgument arg = true ↔
        isNonNullType arg.type = true ∧ arg.defaultValue = .undefined) ∧
    (∀ (arg : GraphQLArgument) (v : JSValue), arg.defaultValue = v →
      v ≠ .undefined → isRequiredArgument arg = false) ∧
    (∀ arg : GraphQLArgument, isNonNullType arg.type = false →
      isRequiredArgument arg = false) ∧
    (∀ field : GraphQLInputField,
      isRequiredInputField field = true ↔
        isNonNullType field.type = true ∧ field.defaultValue = .undefined) ∧
    (∀ (field : GraphQLInputField) (v : JSValue), field.defaultValue = v →
      v ≠ .undefined → isRequiredInputField field = false) ∧
    (∀ field : GraphQLInputField, isNonNullType field.type = false →
      isRequiredInputField field = false) := by
  refine ⟨fun arg => ?_, fun arg v hv hne => ?_, fun arg h => ?_,
    fun field => ?_, fun field v hv hne => ?_, fun field h => ?_⟩
  · simp [isRequiredArgument]
  · subst hv; simp [isRequiredArgument, hne]
  · simp [isRequiredArgument, h]
  · simp [isRequiredInputField]
  · subst hv; simp [isRequiredInputField, hne]
  · simp [isRequiredInputField, h]

/-- Witness for C5 on the three example shapes of the claim, plus a `null`
default on an input field. -/
theorem required_iff_nonNull_and_no_default_witness :
    isRequiredArgument argNonNullNoDefault = true ∧
    isRequiredArgument argNonNullDefaultZero = false ∧
    isRequiredArgument argNullableNoDefault = false ∧
    isRequiredInputField inputFieldDefaultNull = false := by
  refine ⟨?_, ?_, ?_, ?_⟩
  · exact (required_iff_nonNull_and_no_default.1 argNonNullNoDefault).mpr
      ⟨by decide, by decide⟩
  · exact required_iff_nonNull_and_no_default.2.1 argNonNullDefaultZero
      (.num 0) (by decide) (by decide)
  · exact required_iff_nonNull_and_no_default.2.2.1 argNullableNoDefault
      (by decide)
  · exact required_iff_nonNull_and_no_default.2.2.2.2.1 inputFieldDefaultNull
      .null (by decide) (by decide)

/-- C6: normalizing an input object's field map fails with the
resolver-on-input-field error, naming the owner and the field, as soon as a
field configuration record contains a resolver-shaped property at all —
regardless of the property's value (`cfg.resolve.isSome` covers `null` and
no-op functions alike), checked before the rest of that record's
normalization, provided the records before it are resolver-free. -/
theorem input_field_resolver_rejected :
    ∀ (typeName : String)
      (fields : ThunkOrValue (List (String × GraphQLInputFieldConfig)))
      (env : JSEnv) (pre : List (String × GraphQLInputFieldConfig))
      (fieldName : String) (cfg : GraphQLInputFieldConfig)
      (post : List (String × GraphQLInputFieldConfig)),
      resolveThunk fields env = pre ++ (fieldName, cfg) :: post →
      (∀ p ∈ pre, p.2.resolve = none) →
      cfg.resolve.isSome →
      defineInputFieldMap typeName fields env =
        .error (.resolverOnInputField typeName fieldName) := by
  intro typeName fields env pre fieldName cfg post hsplit hpre hres
  unfold defineInputFieldMap
  rw [hsplit]
  apply mapValueE_error_first
  · intro p hp
    refine ⟨{ name := p.1, description := getProp p.2.description,
              type := p.2.type, defaultValue := getProp p.2.defaultValue,
              deprecationReason := getProp p.2.deprecationReason,
              extensions := jsAnd (getProp p.2.extensions) toObjMap,
              astNode := getProp p.2.astNode }, ?_⟩
    simp [defineInputField, hpre p hp]
  · simp [defineInputField, hres]

/-- Witness for C6: a two-field map whose second field carries
`resolve: null` is rejected with the error naming `GeoPoint.bad`. -/
theorem input_field_resolver_rejected_witness :
    defineInputFieldMap "GeoPoint"
      (.value [("lat", inputFieldCleanConfig),
               ("bad", inputFieldResolveNullConfig)]) 0 =
      .error (.resolverOnInputField "GeoPoint" "bad") := by
  exact input_field_resolver_rejected "GeoPoint"
    (.value [("lat", inputFieldCleanConfig),
             ("bad", inputFieldResolveNullConfig)]) 0
    [("lat", inputFieldCleanConfig)] "bad" inputFieldResolveNullConfig []
    rfl (by intro p hp; simp at hp; simp [hp, inputFieldCleanConfig])
    (by decide)

theorem runGetFields_resolved (t : GraphQLObjectType)
    (v : List (String × GraphQLField)) (envs : List JSEnv)
    (h : t._fields = .value v) :
    runGetFields t envs = (List.replicate envs.length (.ok v), t, 0) := by
  induction envs generalizing t with
  | nil => simp [runGetFields]
  | cons env envs ih =>
    have hstep : t.getFields env = (.ok v, t) := by
      simp only [GraphQLObjectType.getFields, h, LazyCellE.force]
      rw [show ({ t with _fields := LazyCellE.value v } : GraphQLObjectType)
            = t by rw [← h]]
    simp [runGetFields, h, hstep, ih t h, List.replicate_succ]

theorem runObjectGetInterfaces_resolved (t : GraphQLObjectType)
    (v : List GType) (envs : List JSEnv) (h : t._interfaces = .value v) :
    runObjectGetInterfaces t envs =
      (List.replicate envs.length (.ok v), t, 0) := by
  induction envs generalizing t with
  | nil => simp [runObjectGetInterfaces]
  | cons env envs ih =>
    have hstep : t.getInterfaces env = (.ok v, t) := by
      simp only [GraphQLObjectType.getInterfaces, h, LazyCellE.force]
      rw [show ({ t with _interfaces := LazyCellE.value v } :
            GraphQLObjectType) = t by rw [← h]]
    simp [runObjectGetInterfaces, h, hstep, ih t h, List.replicate_succ]

theorem runInterfaceGetFields_resolved (t : GraphQLInterfaceType)
    (v : List (String × GraphQLField)) (envs : List JSEnv)
    (h : t._fields = .value v) :
    runInterfaceGetFields t envs =
      (List.replicate envs.length (.ok v), t, 0) := by
  induction envs generalizing t with
  | nil => simp [runInterfaceGetFields]
  | cons env envs ih =>
    have hstep : t.getFields env = (.ok v, t) := by
      simp only [GraphQLInterfaceType.getFields, h, LazyCellE.force]
      rw [show ({ t with _fields := LazyCellE.value v } :
            GraphQLInterfaceType) = t by rw [← h]]
    simp [runInterfaceGetFields, h, hstep, ih t h, List.replicate_succ]

theorem runInterfaceGetInterfaces_resolved (t : GraphQLInterfaceType)
    (v : List GType) (envs : List JSEnv) (h : t._interfaces = .value v) :
    runInterfaceGetInterfaces t envs =
      (List.replicate envs.length (.ok v), t, 0) := by
  induction envs generalizing t with
  | nil => simp [runInterfaceGetInterfaces]
  | cons env envs ih =>
    have hstep : t.getInterfaces env = (.ok v, t) := by
      simp only [GraphQLInterfaceType.getInterfaces, h, LazyCellE.force]
      rw [show ({ t with _interfaces := LazyCellE.value v } :
            GraphQLInterfaceType) = t by rw [← h]]
    simp [runInterfaceGetInterfaces, h, hstep, ih t h, List.replicate_succ]

theorem runGetTypes_resolved (u : GraphQLUnionType) (v : List GType)
    (envs : List JSEnv) (h : u._types = .value v) :
    runGetTypes u envs = (List.replicate envs.length (.ok v), u, 0) := by
  induction envs generalizing u with
  | nil => simp [runGetTypes]
  | cons env envs ih =>
    have hstep : u.getTypes env = (.ok v, u) := by
      simp only [GraphQLUnionType.getTypes, h, LazyCellE.force]
      rw [show ({ u with _types := LazyCellE.value v } : GraphQLUnionType)
            = u by rw [← h]]
    simp [runGetTypes, h, hstep, ih u h, List.replicate_succ]

theorem runInputObjectGetFields_resolved (t : GraphQLInputObjectType)
    (v : List (String × GraphQLInputField)) (envs : List JSEnv)
    (h : t._fields = .value v) :
    runInputObjectGetFields t envs =
      (List.replicate envs.length (.ok v), t, 0) := by
  induction envs generalizing t with
  | nil => simp [runInputObjectGetFields]
  | cons env envs ih =>
    have hstep : t.getFields env = (.ok v, t) := by
      simp only [GraphQLInputObjectType.getFields, h, LazyCellE.force]
      rw [show ({ t with _fields := LazyCellE.value v } :
            GraphQLInputObjectType) = t by rw [← h]]
    simp [runInputObjectGetFields, h, hstep, ih t h, List.replicate_succ]

/-- C7: for object, interface, union and input object types and each of
their lazy accessors (`getFields` on objects, interfaces and input objects,
`getInterfaces` on objects and interfaces, `getTypes` on unions): a pending
thunk whose first invocation succeeds is entered exactly once across any
number of accessor calls; every call — the first and all later ones, under
arbitrary later environment snapshots — returns the first invocation's
result; the owner transitions from pending to resolved in that first call
and stays resolved; and a type whose slot is already resolved answers from
the cache with zero producer invocations. -/
theorem thunk_resolves_exactly_once :
    (∀ (t : GraphQLObjectType) (f : JSEnv → Except GError
        (List (String × GraphQLField)))
      (env : JSEnv) (envs : List JSEnv) (v : List (String × GraphQLField)),
      t._fields = .thunk f → f env = .ok v →
      runGetFields t (env :: envs) =
        (List.replicate (envs.length + 1) (.ok v),
          { t with _fields := .value v }, 1)) ∧
    (∀ (t : GraphQLObjectType) (v : List (String × GraphQLField))
      (envs : List JSEnv), t._fields = .value v →
      runGetFields t envs = (List.replicate envs.length (.ok v), t, 0)) ∧
    (∀ (t : GraphQLObjectType) (f : JSEnv → Except GError (List GType))
      (env : JSEnv) (envs : List JSEnv) (v : List GType),
      t._interfaces = .thunk f → f env = .ok v →
      runObjectGetInterfaces t (env :: envs) =
        (List.replicate (envs.length + 1) (.ok v),
          { t with _interfaces := .value v }, 1)) ∧
    (∀ (t : GraphQLObjectType) (v : List GType) (envs : List JSEnv),
      t._interfaces = .value v →
      runObjectGetInterfaces t envs =
        (List.replicate envs.length (.ok v), t, 0)) ∧
    (∀ (t : GraphQLInterfaceType) (f : JSEnv → Except GError
        (List (String × GraphQLField)))
      (env : JSEnv) (envs : List JSEnv) (v : List (String × GraphQLField)),
      t._fields = .thunk f → f env = .ok v →
      runInterfaceGetFields t (env :: envs) =
        (List.replicate (envs.length + 1) (.ok v),
          { t with _fields := .value v }, 1)) ∧
    (∀ (t : GraphQLInterfaceType) (v : List (String × GraphQLField))
      (envs : List JSEnv), t._fields = .value v →
      runInterfaceGetFields t envs =
        (List.replicate envs.length (.ok v), t, 0)) ∧
    (∀ (t : GraphQLInterfaceType) (f : JSEnv → Except GError (List GType))
      (env : JSEnv) (envs : List JSEnv) (v : List GType),
      t._interfaces = .thunk f → f env = .ok v →
      runInterfaceGetInterfaces t (env :: envs) =
        (List.replicate (envs.length + 1) (.ok v),
          { t with _interfaces := .value v }, 1)) ∧
    (∀ (t : GraphQLInterfaceType) (v : List GType) (envs : List JSEnv),
      t._interfaces = .value v →
      runInterfaceGetInterfaces t envs =
        (List.replicate envs.length (.ok v), t, 0)) ∧
    (∀ (u : GraphQLUnionType) (g : JSEnv → Except GError (List GType))
      (env : JSEnv) (envs : List JSEnv) (tys : List GType),
      u._types = .thunk g → g env = .ok tys →
      runGetTypes u (env :: envs) =
        (List.replicate (envs.length + 1) (.ok tys),
          { u with _types := .value tys }, 1)) ∧
    (∀ (u : GraphQLUnionType) (tys : List GType) (envs : List JSEnv),
      u._types = .value tys →
      runGetTypes u envs = (List.replicate envs.length (.ok tys), u, 0)) ∧
    (∀ (t : GraphQLInputObjectType) (f : JSEnv → Except GError
        (List (String × GraphQLInputField)))
      (env : JSEnv) (envs : List JSEnv)
      (v : List (String × GraphQLInputField)),
      t._fields = .thunk f → f env = .ok v →
      runInputObjectGetFields t (env :: envs) =
        (List.replicate (envs.length + 1) (.ok v),
          { t with _fields := .value v }, 1)) ∧
    (∀ (t : GraphQLInputObjectType) (v : List (String × GraphQLInputField))
      (envs : List JSEnv), t._fields = .value v →
      runInputObjectGetFields t envs =
        (List.replicate envs.length (.ok v), t, 0)) := by
  refine ⟨fun t f env envs v ht hf => ?_, runGetFields_resolved,
    fun t f env envs v ht hf => ?_, runObjectGetInterfaces_resolved,
    fun t f env envs v ht hf => ?_, runInterfaceGetFields_resolved,
    fun t f env envs v ht hf => ?_, runInterfaceGetInterfaces_resolved,
    fun u g env envs tys hu hg => ?_, runGetTypes_resolved,
    fun t f env envs v ht hf => ?_, runInputObjectGetFields_resolved⟩
  · have hstep : t.getFields env =
        (.ok v, { t with _fields := .value v }) := by
      simp [GraphQLObjectType.getFields, ht, LazyCellE.force, hf]
    have hrest := runGetFields_resolved { t with _fields := .value v } v envs rfl
    simp [runGetFields, ht, hstep, hrest, List.replicate_succ]
  · have hstep : t.getInterfaces env =
        (.ok v, { t with _interfaces := .value v }) := by
      simp [GraphQLObjectType.getInterfaces, ht, LazyCellE.force, hf]
    have hrest := runObjectGetInterfaces_resolved
      { t with _interfaces := .value v } v envs rfl
    simp [runObjectGetInterfaces, ht, hstep, hrest, List.replicate_succ]
  · have hstep : t.getFields env =
        (.ok v, { t with _fields := .value v }) := by
      simp [GraphQLInterfaceType.getFields, ht, LazyCellE.force, hf]
    have hrest := runInterfaceGetFields_resolved
      { t with _fields := .value v } v envs rfl
    simp [runInterfaceGetFields, ht, hstep, hrest, List.replicate_succ]
  · have hstep : t.getInterfaces env =
        (.ok v, { t with _interfaces := .value v }) := by
      simp [GraphQLInterfaceType.getInterfaces, ht, LazyCellE.force, hf]
    have hrest := runInterfaceGetInterfaces_resolved
      { t with _interfaces := .value v } v envs rfl
    simp [runInterfaceGetInterfaces, ht, hstep, hrest, List.replicate_succ]
  · have hstep : u.getTypes env =
        (.ok tys, { u with _types := .value tys }) := by
      simp [GraphQLUnionType.getTypes, hu, LazyCellE.force, hg]
    have hrest := runGetTypes_resolved { u with _types := .value tys } tys envs rfl
    simp [runGetTypes, hu, hstep, hrest, List.replicate_succ]
  · have hstep : t.getFields env =
        (.ok v, { t with _fields := .value v }) := by
      simp [GraphQLInputObjectType.getFields, ht, LazyCellE.force, hf]
    have hrest := runInputObjectGetFields_resolved
      { t with _fields := .value v } v envs rfl
    simp [runInputObjectGetFields, ht, hstep, hrest, List.replicate_succ]

/-- Witness for C7, one pending producer per kind and accessor: on the
object, `getFields()` under environment snapshots `0`, `1`, `7` and
`getInterfaces()` under `0`, `1`; on the interface, `getFields()` and
`getInterfaces()` under `0`, `9`; on the union, `getTypes()` under `0`,
`4`; on the input object, `getFields()` under `0`, `3`.  In every run the
producer is entered once, every call observes the snapshot-`0` result even
though the environment changed afterwards, and the owner ends resolved. -/
theorem thunk_resolves_exactly_once_witness :
    runGetFields lazyWitnessObject [0, 1, 7] =
      ([.ok [("a", lazyWitnessField)], .ok [("a", lazyWitnessField)],
        .ok [("a", lazyWitnessField)]],
        { lazyWitnessObject with _fields := .value [("a", lazyWitnessField)] },
        1) ∧
    runObjectGetInterfaces lazyWitnessObject [0, 1] =
      ([.ok [.interface "Named"], .ok [.interface "Named"]],
        { lazyWitnessObject with _interfaces := .value [.interface "Named"] },
        1) ∧
    runInterfaceGetFields lazyWitnessIface [0, 9] =
      ([.ok [("a", lazyWitnessField)], .ok [("a", lazyWitnessField)]],
        { lazyWitnessIface with _fields := .value [("a", lazyWitnessField)] },
        1) ∧
    runInterfaceGetInterfaces lazyWitnessIface [0, 9] =
      ([.ok [.interface "Base"], .ok [.interface "Base"]],
        { lazyWitnessIface with _interfaces := .value [.interface "Base"] },
        1) ∧
    runGetTypes lazyWitnessUnion [0, 4] =
      ([.ok [.object "Dog"], .ok [.object "Dog"]],
        { lazyWitnessUnion with _types := .value [.object "Dog"] }, 1) ∧
    runInputObjectGetFields lazyWitnessInput [0, 3] =
      ([.ok [("lat", lazyWitnessInputField)],
        .ok [("lat", lazyWitnessInputField)]],
        { lazyWitnessInput with
          _fields := .value [("lat", lazyWitnessInputField)] }, 1) := by
  refine ⟨?_, ?_, ?_, ?_, ?_, ?_⟩
  · have h := thunk_resolves_exactly_once.1 lazyWitnessObject
      (fun env => .ok (if env = 0 then [("a", lazyWitnessField)] else []))
      0 [1, 7] [("a", lazyWitnessField)] rfl (by simp)
    simpa [List.replicate] using h
  · have h := thunk_resolves_exactly_once.2.2.1 lazyWitnessObject
      (fun env => .ok (if env = 0 then [.interface "Named"] else []))
      0 [1] [.interface "Named"] rfl (by simp)
    simpa [List.replicate] using h
  · have h := thunk_resolves_exactly_once.2.2.2.2.1 lazyWitnessIface
      (fun env => .ok (if env = 0 then [("a", lazyWitnessField)] else []))
      0 [9] [("a", lazyWitnessField)] rfl (by simp)
    simpa [List.replicate] using h
  · have h := thunk_resolves_exactly_once.2.2.2.2.2.2.1 lazyWitnessIface
      (fun env => .ok (if env = 0 then [.interface "Base"] else []))
      0 [9] [.interface "Base"] rfl (by simp)
    simpa [List.replicate] using h
  · have h := thunk_resolves_exactly_once.2.2.2.2.2.2.2.2.1 lazyWitnessUnion
      (fun env => .ok (if env = 0 then [.object "Dog"] else []))
      0 [4] [.object "Dog"] rfl (by simp)
    simpa [List.replicate] using h
  · have h := thunk_resolves_exactly_once.2.2.2.2.2.2.2.2.2.2.1
      lazyWitnessInput
      (fun env => .ok (if env = 0 then [("lat", lazyWitnessInputField)]
        else []))
      0 [3] [("lat", lazyWitnessInputField)] rfl (by simp)
    simpa [List.replicate] using h

/-! ### Round-trip helper lemmas -/

theorem jsAnd_toObjMap (x : JSValue) : jsAnd x toObjMap = x := by
  unfold jsAnd toObjMap
  split <;> rfl

theorem jsCoalesce_emptyArray_idem (x : JSValue) :
    jsCoalesce (jsCoalesce x emptyArray) emptyArray = jsCoalesce x emptyArray := by
  cases x <;> rfl

theorem jsCoalesce_not_nullish (x y : JSValue) (h : x.isNullish = false) :
    jsCoalesce x y = x := by
  simp [jsCoalesce, h]

theorem mapValueE_ok_mem {α β ε : Type} (l : List (String × α))
    (f : String → α → Except ε β) (r : List (String × β))
    (h : mapValueE l f = .ok r) :
    ∀ q ∈ r, ∃ p ∈ l, p.1 = q.1 ∧ f p.1 p.2 = .ok q.2 := by
  induction l generalizing r with
  | nil =>
    cases h
    simp
  | cons p rest ih =>
    cases p with
    | mk k a =>
      simp only [mapValueE] at h
      cases hf : f k a with
      | error e => rw [hf] at h; exact Except.noConfusion h
      | ok b =>
        rw [hf] at h
        cases hr : mapValueE rest f with
        | error e => rw [hr] at h; exact Except.noConfusion h
        | ok r' =>
          rw [hr] at h
          have : r = (k, b) :: r' := by
            have h' : (Except.ok ((k, b) :: r') :
                Except ε (List (String × β))) = .ok r := h
            cases h'
            rfl
          subst this
          intro q hq
          rcases List.mem_cons.mp hq with hq | hq
          · exact ⟨(k, a), by simp, by simp [hq], by rw [hf]; rw [hq]⟩
          · rcases ih r' hr q hq with ⟨p', hp', hk', hf'⟩
            exact ⟨p', by simp [hp'], hk', hf'⟩

theorem defineArguments_roundtrip (args : List GraphQLArgument)
    (hnd : (args.map (fun a => a.name)).Nodup) :
    defineArguments (argsToArgsConfig args) = args := by
  unfold argsToArgsConfig
  rw [keyValMap_nodup _ _ _ hnd]
  unfold defineArguments
  rw [List.map_map]
  have : ∀ a ∈ args,
      ({ name := a.name, description := getProp (some a.description),
         type := a.type, defaultValue := getProp (some a.defaultValue),
         deprecationReason := getProp (some a.deprecationReason),
         extensions := jsAnd (getProp (some a.extensions)) toObjMap,
         astNode := getProp (some a.astNode) } : GraphQLArgument) = a := by
    intro a _
    cases a
    simp [getProp, jsAnd_toObjMap]
  calc args.map _ = args.map id := List.map_congr_left (fun a ha => this a ha)
  _ = args := List.map_id args

theorem defineField_ok_inv (tn k : String) (cfg : GraphQLFieldConfig)
    (fld : GraphQLField) (h : defineField tn k cfg = .ok fld) :
    fld.name = k ∧ (fld.resolve.isNullish ∨ fld.resolve.isFunction) := by
  unfold defineField at h
  split at h
  · rename_i hcond
    cases h
    exact ⟨rfl, hcond⟩
  · exact Except.noConfusion h

theorem defineFieldMap_ok_inv (tn : String)
    (fields : ThunkOrValue (List (String × GraphQLFieldConfig)))
    (env : JSEnv) (fm : List (String × GraphQLField))
    (h : defineFieldMap tn fields env = .ok fm) :
    ∀ p ∈ fm, p.2.name = p.1 ∧
      (p.2.resolve.isNullish ∨ p.2.resolve.isFunction) := by
  intro p hp
  have h' : mapValueE (resolveThunk fields env) (defineField tn) = .ok fm := h
  rcases mapValueE_ok_mem _ _ _ h' p hp with ⟨q, _, hk, hf⟩
  have hi := defineField_ok_inv tn q.1 q.2 p.2 hf
  exact ⟨hi.1.trans hk, hi.2⟩

theorem defineField_roundtrip (tn k : String) (fld : GraphQLField)
    (hname : fld.name = k)
    (hres : fld.resolve.isNullish ∨ fld.resolve.isFunction)
    (hargs : (fld.args.map (fun a => a.name)).Nodup) :
    defineField tn k (fieldToFieldConfig fld) = .ok fld := by
  unfold defineField fieldToFieldConfig
  rw [if_pos]
  · have ha := defineArguments_roundtrip fld.args hargs
    cases fld
    simp only at hname
    simp [getProp, jsAnd_toObjMap, ha, hname]
  · exact hres

theorem fieldMap_roundtrip (tn : String) (env : JSEnv) :
    ∀ fm : List (String × GraphQLField),
      (∀ p ∈ fm, p.2.name = p.1 ∧
        (p.2.resolve.isNullish ∨ p.2.resolve.isFunction)) →
      (∀ p ∈ fm, (p.2.args.map (fun a => a.name)).Nodup) →
      defineFieldMap tn (.value (fieldsToFieldsConfig fm)) env = .ok fm := by
  intro fm
  induction fm with
  | nil => intro _ _; rfl
  | cons p rest ih =>
    intro hinv hargs
    cases p with
    | mk k fld =>
      have h1 := hinv (k, fld) (by simp)
      have hf := defineField_roundtrip tn k fld h1.1 h1.2
        (hargs (k, fld) (by simp))
      have hr : mapValueE (fieldsToFieldsConfig rest) (defineField tn) =
          .ok rest :=
        ih (fun q hq => hinv q (by simp [hq]))
          (fun q hq => hargs q (by simp [hq]))
      show mapValueE ((k, fieldToFieldConfig fld) :: fieldsToFieldsConfig rest)
        (defineField tn) = _
      simp only [mapValueE, hf, hr]
      rfl

theorem defineInputField_ok_inv (tn k : String)
    (cfg : GraphQLInputFieldConfig) (fld : GraphQLInputField)
    (h : defineInputField tn k cfg = .ok fld) : fld.name = k := by
  unfold defineInputField at h
  split at h
  · exact Except.noConfusion h
  · cases h
    rfl

theorem defineInputFieldMap_ok_inv (tn : String)
    (fields : ThunkOrValue (List (String × GraphQLInputFieldConfig)))
    (env : JSEnv) (fm : List (String × GraphQLInputField))
    (h : defineInputFieldMap tn fields env = .ok fm) :
    ∀ p ∈ fm, p.2.name = p.1 := by
  intro p hp
  have h' : mapValueE (resolveThunk fields env) (defineInputField tn) =
      .ok fm := h
  rcases mapValueE_ok_mem _ _ _ h' p hp with ⟨q, _, hk, hf⟩
  exact (defineInputField_ok_inv tn q.1 q.2 p.2 hf).trans hk

theorem defineInputField_roundtrip (tn k : String) (fld : GraphQLInputField)
    (hname : fld.name = k) :
    defineInputField tn k (inputFieldToConfig fld) =
      .ok { fld with deprecationReason := .undefined } := by
  unfold defineInputField inputFieldToConfig
  rw [if_neg (by simp)]
  cases fld
  simp only at hname
  simp [getProp, jsAnd_toObjMap, hname]

theorem inputFieldMap_roundtrip (tn : String) (env : JSEnv) :
    ∀ fm : List (String × GraphQLInputField),
      (∀ p ∈ fm, p.2.name = p.1) →
      defineInputFieldMap tn
        (.value (fm.map (fun p => (p.1, inputFieldToConfig p.2)))) env =
      .ok (fm.map (fun p =>
        (p.1, { p.2 with deprecationReason := .undefined }))) := by
  intro fm
  induction fm with
  | nil => intro _; rfl
  | cons p rest ih =>
    intro hinv
    cases p with
    | mk k fld =>
      have hf := defineInputField_roundtrip tn k fld (hinv (k, fld) (by simp))
      have hr : mapValueE (rest.map (fun p => (p.1, inputFieldToConfig p.2)))
          (defineInputField tn) =
          .ok (rest.map (fun p =>
            (p.1, { p.2 with deprecationReason := .undefined }))) :=
        ih (fun q hq => hinv q (by simp [hq]))
      show mapValueE ((k, inputFieldToConfig fld) ::
        rest.map (fun p => (p.1, inputFieldToConfig p.2)))
        (defineInputField tn) = _
      simp only [mapValueE, hf, hr]
      rfl

theorem defineEnumValues_value_ne_undefined (tn : String)
    (vm : List (String × GraphQLEnumValueConfig)) (ev : GraphQLEnumValue)
    (h : ev ∈ defineEnumValues tn vm) : ev.value ≠ .undefined := by
  unfold defineEnumValues at h
  rcases List.mem_map.mp h with ⟨p, _, hp⟩
  cases hp
  simp only
  split
  · assumption
  · simp

theorem defineEnumValues_names (tn : String)
    (vm : List (String × GraphQLEnumValueConfig)) :
    (defineEnumValues tn vm).map (fun v => v.name) = vm.map Prod.fst := by
  unfold defineEnumValues
  rw [List.map_map]
  rfl

theorem defineEnumValues_roundtrip (tn2 : String)
    (vals : List GraphQLEnumValue)
    (hnd : (vals.map (fun v => v.name)).Nodup)
    (hne : ∀ v ∈ vals, v.value ≠ .undefined) :
    defineEnumValues tn2
      (keyValMap vals (fun v => v.name) enumValueToConfig) = vals := by
  rw [keyValMap_nodup _ _ _ hnd]
  unfold defineEnumValues
  rw [List.map_map]
  have hpt : ∀ v ∈ vals,
      ({ name := v.name,
         description := getProp (enumValueToConfig v).description,
         value :=
           if getProp (enumValueToConfig v).value ≠ JSValue.undefined then
             getProp (enumValueToConfig v).value
           else .str v.name,
         deprecationReason := getProp (enumValueToConfig v).deprecationReason,
         extensions := jsAnd (getProp (enumValueToConfig v).extensions) toObjMap,
         astNode := getProp (enumValueToConfig v).astNode } :
        GraphQLEnumValue) = v := by
    intro v hv
    have hne' := hne v hv
    cases v
    simp only at hne'
    simp [enumValueToConfig, getProp, jsAnd_toObjMap, hne']
  calc vals.map _ = vals.map id := List.map_congr_left (fun a ha => hpt a ha)
  _ = vals := List.map_id vals

/-- Enum round-trip: with distinct value names (true of every map-built
enum), reconstructing from `toConfig()` reproduces the enum exactly. -/
theorem mkEnumType_roundtrip (config : GraphQLEnumTypeConfig)
    (hnd : (config.values.map Prod.fst).Nodup) :
    mkEnumType (mkEnumType config).toConfig = mkEnumType config := by
  have hnames : ((defineEnumValues config.name config.values).map
      (fun v => v.name)).Nodup := by
    rw [defineEnumValues_names]; exact hnd
  have hvals := defineEnumValues_roundtrip config.name
    (defineEnumValues config.name config.values) hnames
    (fun v hv => defineEnumValues_value_ne_undefined config.name
      config.values v hv)
  unfold mkEnumType GraphQLEnumType.toConfig GraphQLEnumType.getValues
  simp [getProp, jsAnd_toObjMap, jsCoalesce_emptyArray_idem, hvals]

theorem getProp_some (v : JSValue) : getProp (some v) = v := rfl

theorem jsCoalesce_identityFunc_isFunction (a : JSValue)
    (h : a.isNullish = true ∨ a.isFunction = true) :
    (jsCoalesce a identityFunc).isFunction = true := by
  cases a <;> simp_all [jsCoalesce, JSValue.isNullish, JSValue.isFunction,
    identityFunc]

theorem isFunction_not_nullish (a : JSValue) (h : a.isFunction = true) :
    a.isNullish = false := by
  cases a <;> simp_all [JSValue.isNullish, JSValue.isFunction]

theorem jsCoalesce_emptyArray_not_nullish (x : JSValue) :
    (jsCoalesce x emptyArray).isNullish = false := by
  cases x <;> rfl

theorem storedParseLiteral_not_nullish (cfgPL : Option ScalarLiteralParser)
    (pv : JSValue) : (storedParseLiteral cfgPL pv).isNullish = false := by
  unfold storedParseLiteral
  cases cfgPL with
  | none => rfl
  | some p =>
    dsimp only
    by_cases hp : p.isNullish = true
    · rw [if_pos hp]; rfl
    · rw [if_neg hp]
      simpa using hp

theorem storedParseLiteral_function_of_truthy
    (cfgPL : Option ScalarLiteralParser) (pv rawPV : JSValue)
    (h3 : (plPropTruthy cfgPL &&
      !(rawPV.isFunction && plPropFunction cfgPL)) = false)
    (ht : (storedParseLiteral cfgPL pv).isTruthy = true) :
    (storedParseLiteral cfgPL pv).isFunction = true := by
  unfold storedParseLiteral at ht ⊢
  cases cfgPL with
  | none => rfl
  | some p =>
    dsimp only at ht ⊢
    by_cases hp : p.isNullish = true
    · rw [if_pos hp]; rfl
    · rw [if_neg hp] at ht ⊢
      simp only [plPropTruthy, plPropFunction, ht, Bool.true_and,
        Bool.not_eq_false', Bool.and_eq_true] at h3
      exact h3.2

theorem storedParseLiteral_idem (cfgPL : Option ScalarLiteralParser)
    (pv pv2 : JSValue) :
    storedParseLiteral (some (storedParseLiteral cfgPL pv)) pv2 =
      storedParseLiteral cfgPL pv := by
  have h := storedParseLiteral_not_nullish cfgPL pv
  generalize hq : storedParseLiteral cfgPL pv = q at h ⊢
  unfold storedParseLiteral
  dsimp only
  rw [if_neg (by simp [h])]

/-- Scalar round-trip: for a scalar constructed successfully from a config
whose `parseValue` respects its declared type (function, `null` or absent),
reconstructing from `toConfig()` reproduces the scalar exactly. -/
theorem mkScalarType_roundtrip (config : GraphQLScalarTypeConfig)
    (s : GraphQLScalarType)
    (hpv : (getProp config.parseValue).isNullish = true ∨
      (getProp config.parseValue).isFunction = true)
    (h : mkScalarType config = .ok s) :
    mkScalarType s.toConfig = .ok s := by
  unfold mkScalarType at h
  split_ifs at h with h1 h2 h3
  have h3' : (plPropTruthy config.parseLiteral &&
      !((getProp config.parseValue).isFunction &&
        plPropFunction config.parseLiteral)) = false := by
    simpa using h3
  cases h
  have hser : (jsCoalesce (getProp config.serialize) identityFunc).isFunction
      = true := jsCoalesce_identityFunc_isFunction _ (by simpa using h2)
  have hpvf : (jsCoalesce (getProp config.parseValue) identityFunc).isFunction
      = true := jsCoalesce_identityFunc_isFunction _ hpv
  have hplnn := storedParseLiteral_not_nullish config.parseLiteral
    (jsCoalesce (getProp config.parseValue) identityFunc)
  have hc3 : (plPropTruthy (some (storedParseLiteral config.parseLiteral
      (jsCoalesce (getProp config.parseValue) identityFunc))) &&
      !((jsCoalesce (getProp config.parseValue) identityFunc).isFunction &&
        plPropFunction (some (storedParseLiteral config.parseLiteral
          (jsCoalesce (getProp config.parseValue) identityFunc))))) =
      false := by
    by_cases ht : (storedParseLiteral config.parseLiteral
        (jsCoalesce (getProp config.parseValue) identityFunc)).isTruthy = true
    · have hfn := storedParseLiteral_function_of_truthy config.parseLiteral
        (jsCoalesce (getProp config.parseValue) identityFunc)
        (getProp config.parseValue) h3' ht
      simp [plPropTruthy, plPropFunction, ht, hfn, hpvf]
    · simp only [Bool.not_eq_true] at ht
      simp [plPropTruthy, ht]
  unfold GraphQLScalarType.toConfig mkScalarType
  dsimp only
  simp only [getProp_some]
  rw [if_neg (not_not_intro h1), if_neg (not_not_intro (Or.inr hser)),
    if_neg (by rw [hc3]; simp)]
  simp [Except.ok.injEq, GraphQLScalarType.mk.injEq,
    jsCoalesce_not_nullish _ _ (isFunction_not_nullish _ hser),
    jsCoalesce_not_nullish _ _ (isFunction_not_nullish _ hpvf),
    storedParseLiteral_idem, jsAnd_toObjMap, jsCoalesce_emptyArray_idem]

/-- Object round-trip: for an object type constructed from `C` with all lazy
parts forced, `toConfig()` under any later environment returns the resolved
configuration without re-entering any thunk, reconstructing from it (under
any environment) reproduces the resolved type exactly, and the identity
fields are copied verbatim into the configuration. -/
theorem buildObjectType_roundtrip (config : GraphQLObjectTypeConfig)
    (env env2 env3 : JSEnv) (t : GraphQLObjectType)
    (fm : List (String × GraphQLField))
    (h : buildObjectType config env = .ok t)
    (hfm : t._fields = .value fm)
    (hargs : ∀ p ∈ fm, (p.2.args.map (fun a => a.name)).Nodup) :
    ∃ cfg2, t.toConfig env2 = .ok (cfg2, t) ∧
      buildObjectType cfg2 env3 = .ok t ∧
      cfg2.name = t.name ∧ cfg2.description = some t.description ∧
      cfg2.isTypeOf = some t.isTypeOf ∧ cfg2.extensions = some t.extensions ∧
      cfg2.astNode = some t.astNode ∧
      cfg2.extensionASTNodes = some t.extensionASTNodes := by
  unfold buildObjectType mkObjectType at h
  split_ifs at h with hIT
  simp only [GraphQLObjectType.getInterfaces, GraphQLObjectType.getFields,
    LazyCellE.force, defineInterfaces] at h
  cases hdf : defineFieldMap config.name config.fields env with
  | error e =>
    rw [hdf] at h
    exact Except.noConfusion h
  | ok fm0 =>
    rw [hdf] at h
    injection h with h
    subst h
    simp only at hfm
    injection hfm with hfm
    subst hfm
    have hinv := defineFieldMap_ok_inv config.name config.fields env fm0 hdf
    refine ⟨_, rfl, ?_, rfl, rfl, rfl, rfl, rfl, rfl⟩
    unfold buildObjectType mkObjectType
    simp only [getProp_some]
    rw [if_pos hIT]
    simp only [GraphQLObjectType.getInterfaces, GraphQLObjectType.getFields,
      LazyCellE.force, defineInterfaces, resolveThunk]
    rw [fieldMap_roundtrip config.name env3 fm0 hinv hargs]
    simp [jsAnd_toObjMap, jsCoalesce_emptyArray_idem, resolveThunk]

/-- Interface round-trip, mirroring the object case. -/
theorem buildInterfaceType_roundtrip (config : GraphQLInterfaceTypeConfig)
    (env env2 env3 : JSEnv) (t : GraphQLInterfaceType)
    (fm : List (String × GraphQLField))
    (h : buildInterfaceType config env = .ok t)
    (hfm : t._fields = .value fm)
    (hargs : ∀ p ∈ fm, (p.2.args.map (fun a => a.name)).Nodup) :
    ∃ cfg2, t.toConfig env2 = .ok (cfg2, t) ∧
      buildInterfaceType cfg2 env3 = .ok t ∧
      cfg2.name = t.name ∧ cfg2.description = some t.description ∧
      cfg2.resolveType = some t.resolveType ∧
      cfg2.extensions = some t.extensions ∧
      cfg2.astNode = some t.astNode ∧
      cfg2.extensionASTNodes = some t.extensionASTNodes := by
  unfold buildInterfaceType mkInterfaceType at h
  split_ifs at h with hRT
  simp only [GraphQLInterfaceType.getInterfaces, GraphQLInterfaceType.getFields,
    LazyCellE.force, defineInterfaces] at h
  cases hdf : defineFieldMap config.name config.fields env with
  | error e =>
    rw [hdf] at h
    exact Except.noConfusion h
  | ok fm0 =>
    rw [hdf] at h
    injection h with h
    subst h
    simp only at hfm
    injection hfm with hfm
    subst hfm
    have hinv := defineFieldMap_ok_inv config.name config.fields env fm0 hdf
    refine ⟨_, rfl, ?_, rfl, rfl, rfl, rfl, rfl, rfl⟩
    unfold buildInterfaceType mkInterfaceType
    simp only [getProp_some]
    rw [if_pos hRT]
    simp only [GraphQLInterfaceType.getInterfaces,
      GraphQLInterfaceType.getFields, LazyCellE.force, defineInterfaces,
      resolveThunk]
    rw [fieldMap_roundtrip config.name env3 fm0 hinv hargs]
    simp [jsAnd_toObjMap, jsCoalesce_emptyArray_idem, resolveThunk]

/-- Union round-trip: the member list is forced once and copied verbatim. -/
theorem buildUnionType_roundtrip (config : GraphQLUnionTypeConfig)
    (env env2 env3 : JSEnv) (u : GraphQLUnionType)
    (h : buildUnionType config env = .ok u) :
    ∃ cfg2, u.toConfig env2 = .ok (cfg2, u) ∧
      buildUnionType cfg2 env3 = .ok u ∧
      cfg2.name = u.name ∧ cfg2.description = some u.description ∧
      cfg2.resolveType = some u.resolveType ∧
      cfg2.extensions = some u.extensions ∧
      cfg2.astNode = some u.astNode ∧
      cfg2.extensionASTNodes = some u.extensionASTNodes := by
  unfold buildUnionType mkUnionType at h
  split_ifs at h with hRT
  simp only [GraphQLUnionType.getTypes, LazyCellE.force, defineTypes] at h
  injection h with h
  subst h
  refine ⟨_, rfl, ?_, rfl, rfl, rfl, rfl, rfl, rfl⟩
  unfold buildUnionType mkUnionType
  simp only [getProp_some]
  rw [if_pos hRT]
  simp [GraphQLUnionType.getTypes, LazyCellE.force, defineTypes, resolveThunk,
    jsAnd_toObjMap, jsCoalesce_emptyArray_idem]

/-- Input object round-trip: reconstruction reproduces every field's name,
type, default value, description, extensions and AST node — hence the same
classification and the same required-field validation — while the per-field
`deprecationReason` is reset to `undefined`, because the source emits no
`deprecationReason` when re-expressing input fields as configuration. -/
theorem buildInputObjectType_roundtrip (config : GraphQLInputObjectTypeConfig)
    (env env2 env3 : JSEnv) (t : GraphQLInputObjectType)
    (fm : List (String × GraphQLInputField))
    (h : buildInputObjectType config env = .ok t)
    (hfm : t._fields = .value fm) :
    ∃ cfg2, t.toConfig env2 = .ok (cfg2, t) ∧
      cfg2.name = t.name ∧ cfg2.description = some t.description ∧
      cfg2.extensions = some t.extensions ∧ cfg2.astNode = some t.astNode ∧
      cfg2.extensionASTNodes = some t.extensionASTNodes ∧
      ∃ t2, buildInputObjectType cfg2 env3 = .ok t2 ∧
        t2.name = t.name ∧ t2.description = t.description ∧
        t2.extensions = t.extensions ∧ t2.astNode = t.astNode ∧
        t2.extensionASTNodes = t.extensionASTNodes ∧
        t2._fields = .value (fm.map (fun p =>
          (p.1, { p.2 with deprecationReason := .undefined }))) ∧
        fm.map (fun p => isRequiredInputField
          { p.2 with deprecationReason := .undefined }) =
          fm.map (fun p => isRequiredInputField p.2) := by
  unfold buildInputObjectType mkInputObjectType at h
  simp only [GraphQLInputObjectType.getFields, LazyCellE.force] at h
  cases hdf : defineInputFieldMap config.name config.fields env with
  | error e =>
    rw [hdf] at h
    exact Except.noConfusion h
  | ok fm0 =>
    rw [hdf] at h
    injection h with h
    subst h
    simp only at hfm
    injection hfm with hfm
    subst hfm
    have hinv := defineInputFieldMap_ok_inv config.name config.fields env
      fm0 hdf
    have hro := inputFieldMap_roundtrip config.name env3 fm0 hinv
    refine ⟨_, rfl, rfl, rfl, rfl, rfl, rfl,
      { name := config.name
        description := getProp config.description
        extensions := jsAnd (getProp config.extensions) toObjMap
        astNode := getProp config.astNode
        extensionASTNodes :=
          jsCoalesce (getProp config.extensionASTNodes) emptyArray
        _fields := .value (fm0.map (fun p =>
          (p.1, { p.2 with deprecationReason := .undefined }))) }, ?_,
      rfl, rfl, rfl, rfl, rfl, rfl, ?_⟩
    · unfold buildInputObjectType mkInputObjectType
      simp only [GraphQLInputObjectType.getFields, LazyCellE.force,
        getProp_some]
      rw [hro]
      simp [jsAnd_toObjMap, jsCoalesce_emptyArray_idem]
    · apply List.map_congr_left
      intro p _
      rcases p with ⟨k, fld⟩
      cases fld
      rfl

/-- C4: for every named type kind, constructing from a configuration `C`,
forcing all lazy parts, and producing the round-trip configuration
`C' = toConfig()` yields: (i) identity fields (name, description,
extensions, AST references — and the kind's own extras) copied verbatim
into `C'`; (ii) constructing a second type from `C'` reproduces a type
observably identical to the first — for scalars, enums, objects, interfaces
and unions literally the same resolved value (hence identical
classification, codec and validation behavior; for enums the
serialize/parseValue/parseLiteral equations are stated explicitly), and for
input objects a type identical except that each field's
`deprecationReason` is reset (the source's input `toConfig()` does not emit
it), preserving every field's name, type and default value and hence the
required-field validation.  Thunk laziness is not preserved: the
reconstructed collections are direct values, so the result is independent
of the reconstruction-time environments `env2`/`env3`. -/
theorem config_roundtrip_spec :
    (∀ (config : GraphQLScalarTypeConfig) (s : GraphQLScalarType),
      ((getProp config.parseValue).isNullish = true ∨
        (getProp config.parseValue).isFunction = true) →
      mkScalarType config = .ok s →
      mkScalarType s.toConfig = .ok s ∧
      s.toConfig.name = s.name ∧ s.toConfig.description = some s.description ∧
      s.toConfig.extensions = some s.extensions ∧
      s.toConfig.astNode = some s.astNode ∧
      s.toConfig.extensionASTNodes = some s.extensionASTNodes) ∧
    (∀ config : GraphQLEnumTypeConfig, (config.values.map Prod.fst).Nodup →
      mkEnumType (mkEnumType config).toConfig = mkEnumType config ∧
      (∀ w, (mkEnumType (mkEnumType config).toConfig).serialize w =
        (mkEnumType config).serialize w) ∧
      (∀ v, (mkEnumType (mkEnumType config).toConfig).parseValue v =
        (mkEnumType config).parseValue v) ∧
      (∀ (node : ValueNode) (vars : Option (List (String × JSValue))),
        (mkEnumType (mkEnumType config).toConfig).parseLiteral node vars =
        (mkEnumType config).parseLiteral node vars) ∧
      (mkEnumType config).toConfig.name = (mkEnumType config).name ∧
      (mkEnumType config).toConfig.description =
        some (mkEnumType config).description ∧
      (mkEnumType config).toConfig.extensions =
        some (mkEnumType config).extensions ∧
      (mkEnumType config).toConfig.astNode =
        some (mkEnumType config).astNode ∧
      (mkEnumType config).toConfig.extensionASTNodes =
        some (mkEnumType config).extensionASTNodes) ∧
    (∀ (config : GraphQLObjectTypeConfig) (env env2 env3 : JSEnv)
      (t : GraphQLObjectType) (fm : List (String × GraphQLField)),
      buildObjectType config env = .ok t → t._fields = .value fm →
      (∀ p ∈ fm, (p.2.args.map (fun a => a.name)).Nodup) →
      ∃ cfg2, t.toConfig env2 = .ok (cfg2, t) ∧
        buildObjectType cfg2 env3 = .ok t ∧
        cfg2.name = t.name ∧ cfg2.description = some t.description ∧
        cfg2.isTypeOf = some t.isTypeOf ∧
        cfg2.extensions = some t.extensions ∧
        cfg2.astNode = some t.astNode ∧
        cfg2.extensionASTNodes = some t.extensionASTNodes) ∧
    (∀ (config : GraphQLInterfaceTypeConfig) (env env2 env3 : JSEnv)
      (t : GraphQLInterfaceType) (fm : List (String × GraphQLField)),
      buildInterfaceType config env = .ok t → t._fields = .value fm →
      (∀ p ∈ fm, (p.2.args.map (fun a => a.name)).Nodup) →
      ∃ cfg2, t.toConfig env2 = .ok (cfg2, t) ∧
        buildInterfaceType cfg2 env3 = .ok t ∧
        cfg2.name = t.name ∧ cfg2.description = some t.description ∧
        cfg2.resolveType = some t.resolveType ∧
        cfg2.extensions = some t.extensions ∧
        cfg2.astNode = some t.astNode ∧
        cfg2.extensionASTNodes = some t.extensionASTNodes) ∧
    (∀ (config : GraphQLUnionTypeConfig) (env env2 env3 : JSEnv)
      (u : GraphQLUnionType),
      buildUnionType config env = .ok u →
      ∃ cfg2, u.toConfig env2 = .ok (cfg2, u) ∧
        buildUnionType cfg2 env3 = .ok u ∧
        cfg2.name = u.name ∧ cfg2.description = some u.description ∧
        cfg2.resolveType = some u.resolveType ∧
        cfg2.extensions = some u.extensions ∧
        cfg2.astNode = some u.astNode ∧
        cfg2.extensionASTNodes = some u.extensionASTNodes) ∧
    (∀ (config : GraphQLInputObjectTypeConfig) (env env2 env3 : JSEnv)
      (t : GraphQLInputObjectType) (fm : List (String × GraphQLInputField)),
      buildInputObjectType config env = .ok t → t._fields = .value fm →
      ∃ cfg2, t.toConfig env2 = .ok (cfg2, t) ∧
        cfg2.name = t.name ∧ cfg2.description = some t.description ∧
        cfg2.extensions = some t.extensions ∧ cfg2.astNode = some t.astNode ∧
        cfg2.extensionASTNodes = some t.extensionASTNodes ∧
        ∃ t2, buildInputObjectType cfg2 env3 = .ok t2 ∧
          t2.name = t.name ∧ t2.description = t.description ∧
          t2.extensions = t.extensions ∧ t2.astNode = t.astNode ∧
          t2.extensionASTNodes = t.extensionASTNodes ∧
          t2._fields = .value (fm.map (fun p =>
            (p.1, { p.2 with deprecationReason := .undefined }))) ∧
          fm.map (fun p => isRequiredInputField
            { p.2 with deprecationReason := .undefined }) =
            fm.map (fun p => isRequiredInputField p.2)) := by
  refine ⟨fun config s hpv h => ?_, fun config hnd => ?_,
    buildObjectType_roundtrip, buildInterfaceType_roundtrip,
    buildUnionType_roundtrip, buildInputObjectType_roundtrip⟩
  · exact ⟨mkScalarType_roundtrip config s hpv h, rfl, rfl, rfl, rfl, rfl⟩
  · have hr := mkEnumType_roundtrip config hnd
    exact ⟨hr, fun w => by rw [hr], fun v => by rw [hr],
      fun node vars => by rw [hr], rfl, rfl, rfl, rfl, rfl⟩

/-- Witness for C4 on one concrete type of each kind: the scalar and enum
reconstruct to the very same value, and for the thunk-bearing kinds
`toConfig` under a fresh environment returns the resolved configuration and
rebuilding under yet another environment reproduces the forced type. -/
theorem config_roundtrip_spec_witness :
    mkScalarType scalarW.toConfig = .ok scalarW ∧
    mkEnumType (mkEnumType enumCfgW).toConfig = mkEnumType enumCfgW ∧
    (∃ cfg2, objW.toConfig 1 = .ok (cfg2, objW) ∧
      buildObjectType cfg2 2 = .ok objW) ∧
    (∃ cfg2, ifaceW.toConfig 1 = .ok (cfg2, ifaceW) ∧
      buildInterfaceType cfg2 2 = .ok ifaceW) ∧
    (∃ cfg2, unionW.toConfig 1 = .ok (cfg2, unionW) ∧
      buildUnionType cfg2 2 = .ok unionW) ∧
    (∃ cfg2 t2, inputW.toConfig 1 = .ok (cfg2, inputW) ∧
      buildInputObjectType cfg2 2 = .ok t2 ∧ t2.name = inputW.name) := by
  refine ⟨(config_roundtrip_spec.1 scalarCfgW scalarW (Or.inl rfl) rfl).1,
    (config_roundtrip_spec.2.1 enumCfgW (by decide)).1, ?_, ?_, ?_, ?_⟩
  · rcases config_roundtrip_spec.2.2.1 objCfgW 0 1 2 objW
      [("id", objFieldW)] rfl rfl (by decide) with ⟨cfg2, h1, h2, _⟩
    exact ⟨cfg2, h1, h2⟩
  · rcases config_roundtrip_spec.2.2.2.1 ifaceCfgW 0 1 2 ifaceW
      [("id", objFieldW)] rfl rfl (by decide) with ⟨cfg2, h1, h2, _⟩
    exact ⟨cfg2, h1, h2⟩
  · rcases config_roundtrip_spec.2.2.2.2.1 unionCfgW 0 1 2 unionW rfl with
      ⟨cfg2, h1, h2, _⟩
    exact ⟨cfg2, h1, h2⟩
  · rcases config_roundtrip_spec.2.2.2.2.2 inputCfgW 0 1 2 inputW
      [("lat", inputFieldW)] rfl rfl with
      ⟨cfg2, h1, _, _, _, _, _, t2, h2, hname, _⟩
    exact ⟨cfg2, t2, h1, h2, hname⟩

